import Mathlib

/-!
Shallow embedding of the chunked spectral heat-current estimator
(`SHCPostProc.postProcess` and its helpers from `SHC_calculate/SHC_generate.py`),
together with theorems settling the frozen claims about it.

Floating-point arithmetic is modelled by exact real arithmetic; numpy arrays by
Lean lists (with lengths tracked, so that shape mismatches that make numpy raise
are modelled as explicit errors); the sequential velocity stream by a list of
reals consumed chunk by chunk; Python exceptions / `sys.exit` by `Except`.
-/

open scoped BigOperators

noncomputable section

namespace SHC

open Classical

/-- Angular-frequency grid: `np.fft.rfftfreq(N, d) * 2 * np.pi`,
i.e. bin `i = 2*pi*i/(N*d)` for `i = 0 .. N/2` (source line 340). -/
def omsList (N : ℕ) (d : ℝ) : List ℝ :=
  (List.range (N / 2 + 1)).map fun i : ℕ => 2 * Real.pi * ((i : ℝ) / ((N : ℝ) * d))

/-- One row of the column-major reshaped velocity chunk
(`np.reshape(velArray, (NDOF, chunkSize), order='F')`, source line 379):
entry `(a, n)` of the reshaped matrix is flat element `a + NDOF*n`. -/
def chunkRow (velArray : List ℝ) (NDOF a : ℕ) : ℕ → ℝ :=
  fun n => velArray.getD (a + NDOF * n) 0

/-- Real-input DFT bin (`np.fft.rfft`, source line 382):
`X_k = sum_n x_n * exp(-2*pi*I*k*n/N)`. -/
def rfft (x : ℕ → ℝ) (N k : ℕ) : ℂ :=
  ∑ n ∈ Finset.range N,
    (x n : ℂ) * Complex.exp (-(2 * (Real.pi : ℂ) * Complex.I * (k : ℂ) * (n : ℂ)) / (N : ℂ))

/-- Scaled FFT rows: `velFFT = np.fft.rfft(velArray, axis=1); velFFT *= sampleTimestep`
(source lines 382-383), as a function of (row, frequency bin). -/
def velFFTfun (ts : ℝ) (velArray : List ℝ) (NDOF cS : ℕ) : ℕ → ℕ → ℂ :=
  fun a i => (ts : ℂ) * rfft (chunkRow velArray NDOF a) cS i

/-- Row selection `velsL[q::3,:] = velFFT[3*ids + q,:]` (source lines 390-398):
row `3*j + q` of the selected matrix is row `3*ids[j] + q` of `velFFT`. -/
def selRows (ids : List ℕ) (F : ℕ → ℕ → ℂ) : ℕ → ℕ → ℂ :=
  fun a i => F (3 * ids.getD (a / 3) 0 + a % 3) i

/-- Complex dot product of two vectors of length `n` (`np.dot` of 1-D arrays). -/
def dotC (n : ℕ) (u v : ℕ → ℂ) : ℂ :=
  ∑ a ∈ Finset.range n, u a * v a

/-- Matrix-vector product `np.dot(Kij, w)` with a real matrix of `cols` columns. -/
def matVecC (cols : ℕ) (K : ℕ → ℕ → ℝ) (w : ℕ → ℂ) : ℕ → ℂ :=
  fun a => ∑ b ∈ Finset.range cols, (K a b : ℂ) * w b

/-- Per-chunk spectral curve before normalization (source lines 406-412):
`SHC[0] = 0`, and for `ki >= 1`
`SHC[ki] = -2 * Im(dot(velsL[:,ki], dot(Kij, conj(velsR[:,ki])))) / oms[ki]`. -/
def chunkSHCList (Nfreqs NL NR : ℕ) (K : ℕ → ℕ → ℝ) (vL vR : ℕ → ℕ → ℂ)
    (oms : List ℝ) : List ℝ :=
  (List.range Nfreqs).map fun ki =>
    if ki = 0 then 0
    else -2 * (dotC (3 * NL) (fun a => vL a ki)
          (matVecC (3 * NR) K (fun b => (starRingEnd ℂ) (vR b ki)))).im / oms.getD ki 0

/-- Normalization `SHC /= (chunkSize * sampleTimestep); SHC *= scaleFactor`
(source lines 416-420). -/
def normalizeCurve (c : List ℝ) (cS : ℕ) (ts scale : ℝ) : List ℝ :=
  (c.map fun x => x / ((cS : ℝ) * ts)).map fun x => x * scale

/-- Window size `gwin = np.ceil(widthWin/df)`, forced odd (source lines 249-252). -/
def gwinOf (widthWin df : ℝ) : ℤ :=
  let g : ℤ := ⌈widthWin / df⌉
  if g % 2 = 0 then g + 1 else g

/-- The normalized Gaussian kernel of `_smoothen` (source lines 254-261):
size-1 window is the identity kernel `[1]`; otherwise
`n_j = 3*(2*j/(gwin-1) - 1)`, `gauss_j = exp(-n_j^2/2)`, normalized to sum 1. -/
def gaussKernel (gwin : ℤ) : List ℝ :=
  if gwin = 1 then [1]
  else
    let raw := (List.range gwin.toNat).map fun j : ℕ =>
      Real.exp (-(3 * (2 * (j : ℝ) / ((gwin : ℝ) - 1) - 1)) ^ 2 / 2)
    raw.map fun x => x / raw.sum

/-- Entry `n` of the full discrete convolution of `a` with `v`. -/
def fullConvAt (a v : List ℝ) (n : ℕ) : ℝ :=
  ∑ j ∈ Finset.range a.length, a.getD j 0 * (if j ≤ n then v.getD (n - j) 0 else 0)

/-- Convolution `np.convolve(a, v, mode='same')`: the centered `max(M,N)` entries of the
full convolution, starting at offset `(min(M,N)-1)/2`. -/
def convolveSame (a v : List ℝ) : List ℝ :=
  (List.range (max a.length v.length)).map fun i =>
    fullConvAt a v (i + (min a.length v.length - 1) / 2)

/-- Smoothing filter `SHCPostProc._smoothen` (source lines 247-266). -/
def smoothen (func : List ℝ) (df widthWin : ℝ) : List ℝ :=
  convolveSame func (gaussKernel (gwinOf widthWin df))

/-- Spacing `df = (oms_fft[1] - oms_fft[0]) / (2*pi)` (source line 428). -/
def dfOf (oms : List ℝ) : ℝ :=
  (oms.getD 1 0 - oms.getD 0 0) / (2 * Real.pi)

/-- The running-average update for chunk index `k` (source lines 433-437):
`M <- (k*M + x)/(k + 1)` elementwise. -/
def aggStep (k : ℕ) (m x : ℝ) : ℝ :=
  ((k : ℝ) * m + x) / ((k : ℝ) + 1)

/-- Iterating `aggStep` over a list of contributions, starting at index `k`
with accumulator `m`. -/
def runAgg : List ℝ → ℕ → ℝ → ℝ
  | [], _, m => m
  | x :: xs, k, m => runAgg xs (k + 1) (aggStep k m x)

/-- Zero the rows with index `2 mod 3` (in-plane projection, real matrix;
`Kij[2::3,:] = 0`, source line 273). -/
def zeroZrowsR (K : ℕ → ℕ → ℝ) : ℕ → ℕ → ℝ :=
  fun a b => if a % 3 = 2 then 0 else K a b

/-- Zero the rows with index `2 mod 3` (in-plane projection, complex matrix). -/
def zeroZrowsC (v : ℕ → ℕ → ℂ) : ℕ → ℕ → ℂ :=
  fun a b => if a % 3 = 2 then 0 else v a b

/-- Zero the rows with index `0` or `1 mod 3` (out-of-plane projection,
real matrix; source lines 282-283). -/
def zeroXYrowsR (K : ℕ → ℕ → ℝ) : ℕ → ℕ → ℝ :=
  fun a b => if a % 3 = 0 then 0 else if a % 3 = 1 then 0 else K a b

/-- Zero the rows with index `0` or `1 mod 3` (out-of-plane projection,
complex matrix). -/
def zeroXYrowsC (v : ℕ → ℕ → ℂ) : ℕ → ℕ → ℂ :=
  fun a b => if a % 3 = 0 then 0 else if a % 3 = 1 then 0 else v a b

/-- Errors of the modelled run: Python exceptions and `sys.exit` calls. -/
inductive PPErr where
  | atomCountMismatch
  | strideMismatch
  | idMismatch
  | bothDirections
  | reshapeError
  | omsIndexError
  | emptyKernelError
  | broadcastError
  deriving DecidableEq

/-- Projection `SHCPostProc._differ_direction` (source lines 268-294): mutates `Kij` and
the two velocity matrices in place; raises `AttributeError` when the two
projection flags do not select exactly one direction. -/
def differDirection (inPlane outPlane : Bool) (K : ℕ → ℕ → ℝ) (vL vR : ℕ → ℕ → ℂ) :
    Except PPErr ((ℕ → ℕ → ℝ) × (ℕ → ℕ → ℂ) × (ℕ → ℕ → ℂ)) :=
  if inPlane = true ∧ outPlane = false then
    .ok (zeroZrowsR K, zeroZrowsC vL, zeroZrowsC vR)
  else if outPlane = true ∧ inPlane = false then
    .ok (zeroXYrowsR K, zeroXYrowsC vL, zeroXYrowsC vR)
  else .error .bothDirections

/-- The attributes of `SHCPostProc` relevant to `postProcess`, as they stand
when `postProcess` is entered. -/
structure Config where
  NL : ℕ
  NR : ℕ
  ids_L : List ℕ
  ids_R : List ℕ
  inds_interface : List ℕ
  Kij : ℕ → ℕ → ℝ
  NChunks : ℕ
  chunkSize : ℕ
  dt_md : ℝ
  sampleTimestep : ℝ
  scaleFactor : ℝ
  widthWin : ℝ
  in_plane : Bool
  out_of_plane : Bool

/-- The parsed compact velocity file: header values, the atom-id list, and the
flat whitespace-separated velocity samples. -/
structure VStream where
  Natoms : ℕ
  strideHeader : ℕ
  idArray : List ℕ
  data : List ℝ

/-- Mutable state of the chunk loop (the attributes the loop updates). -/
structure LoopSt where
  data : List ℝ
  chunkSize : ℕ
  NChunks : ℤ
  oms : List ℝ
  Kij : ℕ → ℕ → ℝ
  SHC_smooth : List ℝ
  SHC_smooth2 : List ℝ
  SHC_average : List ℝ

/-- The raw (normalized, un-smoothed) per-chunk curve `SHC_orig`
(source lines 406-424) as a function of the current matrices and grid. -/
def chunkRawOf (cfg : Config) (cS : ℕ) (K : ℕ → ℕ → ℝ) (vL vR : ℕ → ℕ → ℂ)
    (oms : List ℝ) : List ℝ :=
  normalizeCurve (chunkSHCList oms.length cfg.NL cfg.NR K vL vR oms)
    cS cfg.sampleTimestep cfg.scaleFactor

/-- Body of one chunk iteration after the read-size dispatch
(source lines 379-449): reshape, FFT, row selection, optional projection,
spectral curve, normalization, smoothing, and either the running-average
update (`exitFlag = false`) or the aggregator reseeding (`exitFlag = true`,
first chunk with a new chunk size).  The returned Bool is `true` when the
loop continues to the next chunk. -/
def processChunk (cfg : Config) (NDOF k : ℕ) (exitFlag : Bool) (cS : ℕ)
    (oms2 : List ℝ) (velArray rest : List ℝ) (st : LoopSt) :
    Except PPErr (Bool × LoopSt) :=
  if velArray.length ≠ NDOF * cS then .error .reshapeError
  else
    (if cfg.in_plane || cfg.out_of_plane then
        differDirection cfg.in_plane cfg.out_of_plane st.Kij
          (selRows cfg.ids_L (velFFTfun cfg.sampleTimestep velArray NDOF cS))
          (selRows cfg.ids_R (velFFTfun cfg.sampleTimestep velArray NDOF cS))
      else
        .ok (st.Kij,
          selRows cfg.ids_L (velFFTfun cfg.sampleTimestep velArray NDOF cS),
          selRows cfg.ids_R (velFFTfun cfg.sampleTimestep velArray NDOF cS))).bind
      fun KLR =>
        let SHCn := chunkRawOf cfg cS KLR.1 KLR.2.1 KLR.2.2 oms2
        if oms2.length < 2 then .error .omsIndexError
        else if gwinOf cfg.widthWin (dfOf oms2) < 1 then .error .emptyKernelError
        else
          let SHCs := smoothen SHCn (dfOf oms2) cfg.widthWin
          if exitFlag = false then
            if SHCs.length ≠ st.SHC_smooth.length ∨ SHCn.length ≠ st.SHC_average.length then
              .error .broadcastError
            else
              .ok (true,
                { st with
                  data := rest
                  chunkSize := cS
                  oms := oms2
                  Kij := KLR.1
                  SHC_smooth := List.zipWith (aggStep k) st.SHC_smooth SHCs
                  SHC_smooth2 := List.zipWith (aggStep k) st.SHC_smooth2 (SHCs.map fun x => x ^ 2)
                  SHC_average := List.zipWith (aggStep k) st.SHC_average SHCn })
          else
            .ok (false,
              { st with
                data := rest
                chunkSize := cS
                oms := oms2
                Kij := KLR.1
                SHC_smooth := SHCs
                SHC_smooth2 := SHCs.map (fun x => x ^ 2)
                SHC_average := SHCn
                NChunks := 1 })

/-- One iteration of the chunk loop (source lines 351-449): attempt to read a
chunk of `chunkSize * NDOF` samples and dispatch on the read size.
An empty read sets `NChunks = k - 1` and stops; a short read at `k > 0`
shrinks `chunkSize`, sets `NChunks = k - 1` and stops; a short read at `k = 0`
shrinks `chunkSize`, rebuilds the frequency grid and processes the chunk with
`exitFlag` set; a full read processes the chunk normally. -/
def stepChunk (cfg : Config) (NDOF k : ℕ) (st : LoopSt) : Except PPErr (Bool × LoopSt) :=
  let velArray := st.data.take (st.chunkSize * NDOF)
  let rest := st.data.drop (st.chunkSize * NDOF)
  if velArray.length = 0 then
    .ok (false, { st with data := rest, NChunks := (k : ℤ) - 1 })
  else if velArray.length ≠ st.chunkSize * NDOF then
    if 0 < k then
      .ok (false,
        { st with
          data := rest
          chunkSize := velArray.length / NDOF
          NChunks := (k : ℤ) - 1 })
    else
      processChunk cfg NDOF k true (velArray.length / NDOF)
        (omsList (velArray.length / NDOF) cfg.sampleTimestep) velArray rest st
  else
    processChunk cfg NDOF k false st.chunkSize st.oms velArray rest st

/-- The chunk loop `for k in np.arange(self.NChunks)` with early exits. -/
def chunkLoop (cfg : Config) (NDOF : ℕ) : ℕ → ℕ → LoopSt → Except PPErr LoopSt
  | 0, _, st => .ok st
  | fuel + 1, k, st =>
    match stepChunk cfg NDOF k st with
    | .error e => .error e
    | .ok (true, st2) => chunkLoop cfg NDOF fuel (k + 1) st2
    | .ok (false, st2) => .ok st2

/-- Public outcome of `postProcess`: the final attributes of the object. -/
structure Result where
  NChunks : ℤ
  oms_fft : List ℝ
  SHC_smooth : List ℝ
  SHC_smooth2 : List ℝ
  SHC_average : List ℝ
  SHC_error : Option (List ℝ)
  Kij : ℕ → ℕ → ℝ

/-- The between-chunk error curve (source lines 457-458):
`sqrt((n/(n-1)) * (SHC_smooth2 - SHC_smooth^2)) / sqrt(n)` elementwise. -/
def errCurve (n : ℤ) (m2 m : List ℝ) : List ℝ :=
  ((List.zipWith (fun x2 x => ((n : ℝ) / ((n : ℝ) - 1)) * (x2 - x ^ 2)) m2 m).map
      Real.sqrt).map fun y => y / Real.sqrt (n : ℝ)

/-- Finalization (source lines 455-463): the error estimate is computed only
when `NChunks > 1`, otherwise `SHC_error` is `None`. -/
def finalizeRun (st : LoopSt) : Result :=
  { NChunks := st.NChunks, oms_fft := st.oms, SHC_smooth := st.SHC_smooth,
    SHC_smooth2 := st.SHC_smooth2, SHC_average := st.SHC_average,
    SHC_error :=
      if 1 < st.NChunks then some (errCurve st.NChunks st.SHC_smooth2 st.SHC_smooth)
      else none,
    Kij := st.Kij }

/-- The atom-id consistency check (source lines 322-324). -/
def idsMatch (cfg : Config) (s : VStream) : Prop :=
  ∀ j ∈ List.range s.Natoms, cfg.inds_interface.getD j 0 + 1 = s.idArray.getD j 0

/-- Initial loop state (source lines 340-347). -/
def initSt (cfg : Config) (s : VStream) : LoopSt :=
  { data := s.data, chunkSize := cfg.chunkSize, NChunks := (cfg.NChunks : ℤ),
    oms := omsList cfg.chunkSize cfg.sampleTimestep, Kij := cfg.Kij,
    SHC_smooth := List.replicate (omsList cfg.chunkSize cfg.sampleTimestep).length 0,
    SHC_smooth2 := List.replicate (omsList cfg.chunkSize cfg.sampleTimestep).length 0,
    SHC_average := List.replicate (omsList cfg.chunkSize cfg.sampleTimestep).length 0 }

/-- Main routine `SHCPostProc.postProcess` (source lines 296-467): header checks, then the
chunk loop, then finalization. -/
def postProcess (cfg : Config) (s : VStream) : Except PPErr Result :=
  if s.Natoms = cfg.NL + cfg.NR then
    if (s.strideHeader : ℝ) * cfg.dt_md = cfg.sampleTimestep then
      if idsMatch cfg s then
        Except.map finalizeRun
          (chunkLoop cfg (3 * (cfg.NL + cfg.NR)) cfg.NChunks 0 (initSt cfg s))
      else .error .idMismatch
    else .error .strideMismatch
  else .error .atomCountMismatch

/-! ### Basic list-access and length lemmas -/

theorem getD_map_of_lt (l : List ℝ) (i : ℕ) (h : i < l.length) (f : ℝ → ℝ) :
    ((l.map f).getD i 0) = f (l.getD i 0) := by
  rw [List.getD_eq_getElem?_getD, List.getD_eq_getElem?_getD]
  simp [List.getElem?_eq_getElem, h, List.getElem?_map]

theorem getD_map_range (n i : ℕ) (f : ℕ → ℝ) (hi : i < n) :
    (((List.range n).map f).getD i 0) = f i := by
  rw [List.getD_eq_getElem?_getD]
  simp [List.getElem?_map, List.getElem?_range, hi]

theorem length_omsList (N : ℕ) (d : ℝ) : (omsList N d).length = N / 2 + 1 := by
  rw [omsList, List.length_map, List.length_range]

theorem length_chunkSHCList (Nf NL NR : ℕ) (K : ℕ → ℕ → ℝ) (vL vR : ℕ → ℕ → ℂ)
    (oms : List ℝ) : (chunkSHCList Nf NL NR K vL vR oms).length = Nf := by
  simp [chunkSHCList]

theorem length_normalizeCurve (c : List ℝ) (cS : ℕ) (ts scale : ℝ) :
    (normalizeCurve c cS ts scale).length = c.length := by
  simp [normalizeCurve]

theorem length_chunkRawOf (cfg : Config) (cS : ℕ) (K : ℕ → ℕ → ℝ)
    (vL vR : ℕ → ℕ → ℂ) (oms : List ℝ) :
    (chunkRawOf cfg cS K vL vR oms).length = oms.length := by
  rw [chunkRawOf, length_normalizeCurve, length_chunkSHCList]

theorem length_convolveSame (a v : List ℝ) :
    (convolveSame a v).length = max a.length v.length := by
  simp [convolveSame]

theorem length_smoothen (func : List ℝ) (df widthWin : ℝ) :
    (smoothen func df widthWin).length = max func.length (gaussKernel (gwinOf widthWin df)).length := by
  rw [smoothen, length_convolveSame]

/-! ### C6: the incremental running mean equals the batch mean -/

theorem runAgg_spec (xs : List ℝ) (k : ℕ) (m : ℝ) (hk : 0 < k) :
    runAgg xs k m = ((k : ℝ) * m + xs.sum) / ((k : ℝ) + xs.length) := by
  induction xs generalizing k m with
  | nil =>
    have hk' : ((k : ℝ)) ≠ 0 := Nat.cast_ne_zero.mpr hk.ne'
    simp only [runAgg, List.sum_nil, List.length_nil, Nat.cast_zero, add_zero]
    field_simp
  | cons x xs ih =>
    have h1 : ((k : ℝ) + 1) ≠ 0 := by positivity
    simp only [runAgg]
    rw [ih (k + 1) (aggStep k m x) k.succ_pos, aggStep]
    push_cast
    rw [List.sum_cons, List.length_cons]
    push_cast
    field_simp
    ring

theorem runAgg_from_zero (xs : List ℝ) : runAgg xs 0 0 = xs.sum / (xs.length : ℝ) := by
  cases xs with
  | nil => simp [runAgg]
  | cons x xs =>
    have h0 : aggStep 0 0 x = x := by simp [aggStep]
    simp only [runAgg, h0]
    rw [runAgg_spec xs 1 x one_pos]
    rw [List.sum_cons, List.length_cons]
    push_cast
    rw [one_mul]
    ring_nf

/-- C6: for every sequence of chunk curves folded in by the incremental update
`M <- (k*M + x)/(k+1)` (the update `aggStep` used by `processChunk`) starting
from `M = 0` at count 0, the final value at each frequency index equals the
elementwise arithmetic mean of the contributed curves, i.e. the incremental
formula equals the batch formula. -/
theorem C6_incremental_mean_eq_batch_mean (curves : List (ℕ → ℝ)) (i : ℕ) :
    runAgg (curves.map fun c => c i) 0 0
      = (curves.map fun c => c i).sum / (curves.length : ℝ) := by
  rw [runAgg_from_zero, List.length_map]

/-! ### C1: the per-chunk spectral curve formula -/

theorem getD_chunkSHCList (Nf NL NR : ℕ) (K : ℕ → ℕ → ℝ) (vL vR : ℕ → ℕ → ℂ)
    (oms : List ℝ) (i : ℕ) (hi : i < Nf) :
    (chunkSHCList Nf NL NR K vL vR oms).getD i 0
      = if i = 0 then 0
        else -2 * (dotC (3 * NL) (fun a => vL a i)
              (matVecC (3 * NR) K fun b => (starRingEnd ℂ) (vR b i))).im / oms.getD i 0 := by
  rw [chunkSHCList, getD_map_range _ _ _ hi]

/-- C1: for every chunk, the per-chunk spectral curve (as computed by
`chunkRawOf` inside `processChunk`) satisfies, for each frequency index
`i >= 1`, `SHC[i] = -2 * Im(sum_a sum_b V_L[a,i] * K[a,b] * conj(V_R[b,i]))
/ oms[i]`, where `V_L`, `V_R` are the selected rows of the rfft of the
de-interleaved chunk scaled by `sampleTimestep`, and the whole curve is then
divided by `chunkSize * sampleTimestep` and multiplied by the caller-supplied
scale factor. -/
theorem C1_per_chunk_spectral_formula (cfg : Config) (velArray : List ℝ) (cS : ℕ)
    (K : ℕ → ℕ → ℝ) (i : ℕ) (h1 : 1 ≤ i)
    (h2 : i < (omsList cS cfg.sampleTimestep).length) :
    (chunkRawOf cfg cS K
        (selRows cfg.ids_L (velFFTfun cfg.sampleTimestep velArray (3 * (cfg.NL + cfg.NR)) cS))
        (selRows cfg.ids_R (velFFTfun cfg.sampleTimestep velArray (3 * (cfg.NL + cfg.NR)) cS))
        (omsList cS cfg.sampleTimestep)).getD i 0
      = -2 * (∑ a ∈ Finset.range (3 * cfg.NL), ∑ b ∈ Finset.range (3 * cfg.NR),
            selRows cfg.ids_L (velFFTfun cfg.sampleTimestep velArray (3 * (cfg.NL + cfg.NR)) cS) a i
              * (K a b : ℂ)
              * (starRingEnd ℂ)
                  (selRows cfg.ids_R (velFFTfun cfg.sampleTimestep velArray (3 * (cfg.NL + cfg.NR)) cS) b i)).im
          / (omsList cS cfg.sampleTimestep).getD i 0
          / ((cS : ℝ) * cfg.sampleTimestep) * cfg.scaleFactor := by
  have hne : i ≠ 0 := Nat.one_le_iff_ne_zero.mp h1
  have hlen1 : i < (chunkSHCList (omsList cS cfg.sampleTimestep).length cfg.NL cfg.NR K
      (selRows cfg.ids_L (velFFTfun cfg.sampleTimestep velArray (3 * (cfg.NL + cfg.NR)) cS))
      (selRows cfg.ids_R (velFFTfun cfg.sampleTimestep velArray (3 * (cfg.NL + cfg.NR)) cS))
      (omsList cS cfg.sampleTimestep)).length := by
    rw [length_chunkSHCList]; exact h2
  have key : dotC (3 * cfg.NL)
      (fun a => selRows cfg.ids_L (velFFTfun cfg.sampleTimestep velArray (3 * (cfg.NL + cfg.NR)) cS) a i)
      (matVecC (3 * cfg.NR) K fun b =>
        (starRingEnd ℂ) (selRows cfg.ids_R (velFFTfun cfg.sampleTimestep velArray (3 * (cfg.NL + cfg.NR)) cS) b i))
      = ∑ a ∈ Finset.range (3 * cfg.NL), ∑ b ∈ Finset.range (3 * cfg.NR),
          selRows cfg.ids_L (velFFTfun cfg.sampleTimestep velArray (3 * (cfg.NL + cfg.NR)) cS) a i
            * (K a b : ℂ)
            * (starRingEnd ℂ)
                (selRows cfg.ids_R (velFFTfun cfg.sampleTimestep velArray (3 * (cfg.NL + cfg.NR)) cS) b i) := by
    rw [dotC]
    refine Finset.sum_congr rfl fun a _ => ?_
    rw [matVecC, Finset.mul_sum]
    refine Finset.sum_congr rfl fun b _ => ?_
    ring
  rw [chunkRawOf, normalizeCurve]
  rw [getD_map_of_lt _ _ (by simpa using hlen1)]
  rw [getD_map_of_lt _ _ hlen1]
  rw [getD_chunkSHCList _ _ _ _ _ _ _ _ h2, if_neg hne, key]

/-- A small concrete configuration used to instantiate theorems:
one atom on each side (`NDOF = 6`), `chunkSize = 4`, unit timestep and scale,
a smoothing window that resolves to the identity kernel, force-constant
matrix with a single nonzero entry `K[0][0] = 1`. -/
def cfgA : Config where
  NL := 1
  NR := 1
  ids_L := [0]
  ids_R := [1]
  inds_interface := [5, 6]
  Kij := fun a b => if a = 0 ∧ b = 0 then 1 else 0
  NChunks := 1
  chunkSize := 4
  dt_md := 1
  sampleTimestep := 1
  scaleFactor := 1
  widthWin := 1 / 8
  in_plane := false
  out_of_plane := false

/-- A stream with a matching header for `cfgA` and the given velocity data. -/
def mkStream (data : List ℝ) : VStream where
  Natoms := 2
  strideHeader := 1
  idArray := [6, 7]
  data := data

/-- Witness for C1: the per-chunk formula instantiated at a concrete input. -/
theorem C1_per_chunk_spectral_formula_witness :
    1 ≤ 1 ∧ 1 < (omsList 4 cfgA.sampleTimestep).length ∧
    (chunkRawOf cfgA 4 cfgA.Kij
        (selRows cfgA.ids_L (velFFTfun cfgA.sampleTimestep [] (3 * (cfgA.NL + cfgA.NR)) 4))
        (selRows cfgA.ids_R (velFFTfun cfgA.sampleTimestep [] (3 * (cfgA.NL + cfgA.NR)) 4))
        (omsList 4 cfgA.sampleTimestep)).getD 1 0
      = -2 * (∑ a ∈ Finset.range (3 * cfgA.NL), ∑ b ∈ Finset.range (3 * cfgA.NR),
            selRows cfgA.ids_L (velFFTfun cfgA.sampleTimestep [] (3 * (cfgA.NL + cfgA.NR)) 4) a 1
              * (cfgA.Kij a b : ℂ)
              * (starRingEnd ℂ)
                  (selRows cfgA.ids_R (velFFTfun cfgA.sampleTimestep [] (3 * (cfgA.NL + cfgA.NR)) 4) b 1)).im
          / (omsList 4 cfgA.sampleTimestep).getD 1 0
          / ((4 : ℝ) * cfgA.sampleTimestep) * cfgA.scaleFactor := by
  refine ⟨le_refl 1, ?_, C1_per_chunk_spectral_formula cfgA [] 4 cfgA.Kij 1 (le_refl 1) ?_⟩ <;>
    rw [length_omsList] <;> norm_num

/-! ### Evaluation machinery for concrete and symbolic runs -/

theorem postProcess_header (cfg : Config) (s : VStream)
    (h1 : s.Natoms = cfg.NL + cfg.NR)
    (h2 : (s.strideHeader : ℝ) * cfg.dt_md = cfg.sampleTimestep)
    (h3 : idsMatch cfg s) :
    postProcess cfg s =
      Except.map finalizeRun
        (chunkLoop cfg (3 * (cfg.NL + cfg.NR)) cfg.NChunks 0 (initSt cfg s)) := by
  rw [postProcess, if_pos h1, if_pos h2, if_pos h3]

theorem chunkLoop_zero (cfg : Config) (NDOF k : ℕ) (st : LoopSt) :
    chunkLoop cfg NDOF 0 k st = .ok st := rfl

theorem chunkLoop_cont (cfg : Config) (NDOF fuel k : ℕ) (st st2 : LoopSt)
    (h : stepChunk cfg NDOF k st = .ok (true, st2)) :
    chunkLoop cfg NDOF (fuel + 1) k st = chunkLoop cfg NDOF fuel (k + 1) st2 := by
  simp only [chunkLoop, h]

theorem chunkLoop_stop (cfg : Config) (NDOF fuel k : ℕ) (st st2 : LoopSt)
    (h : stepChunk cfg NDOF k st = .ok (false, st2)) :
    chunkLoop cfg NDOF (fuel + 1) k st = .ok st2 := by
  simp only [chunkLoop, h]

theorem chunkLoop_error (cfg : Config) (NDOF fuel k : ℕ) (st : LoopSt) (e : PPErr)
    (h : stepChunk cfg NDOF k st = .error e) :
    chunkLoop cfg NDOF (fuel + 1) k st = .error e := by
  simp only [chunkLoop, h]

theorem stepChunk_empty (cfg : Config) (NDOF k : ℕ) (st : LoopSt)
    (h : (st.data.take (st.chunkSize * NDOF)).length = 0) :
    stepChunk cfg NDOF k st =
      .ok (false,
        { st with data := st.data.drop (st.chunkSize * NDOF), NChunks := (k : ℤ) - 1 }) := by
  simp only [stepChunk]
  rw [if_pos h]

theorem stepChunk_shortLater (cfg : Config) (NDOF k : ℕ) (st : LoopSt)
    (h0 : (st.data.take (st.chunkSize * NDOF)).length ≠ 0)
    (h1 : (st.data.take (st.chunkSize * NDOF)).length ≠ st.chunkSize * NDOF)
    (hk : 0 < k) :
    stepChunk cfg NDOF k st =
      .ok (false,
        { st with
          data := st.data.drop (st.chunkSize * NDOF)
          chunkSize := (st.data.take (st.chunkSize * NDOF)).length / NDOF
          NChunks := (k : ℤ) - 1 }) := by
  simp only [stepChunk]
  rw [if_neg h0, if_pos h1, if_pos hk]

theorem stepChunk_shortFirst (cfg : Config) (NDOF : ℕ) (st : LoopSt)
    (h0 : (st.data.take (st.chunkSize * NDOF)).length ≠ 0)
    (h1 : (st.data.take (st.chunkSize * NDOF)).length ≠ st.chunkSize * NDOF) :
    stepChunk cfg NDOF 0 st =
      processChunk cfg NDOF 0 true ((st.data.take (st.chunkSize * NDOF)).length / NDOF)
        (omsList ((st.data.take (st.chunkSize * NDOF)).length / NDOF) cfg.sampleTimestep)
        (st.data.take (st.chunkSize * NDOF)) (st.data.drop (st.chunkSize * NDOF)) st := by
  simp only [stepChunk]
  rw [if_neg h0, if_pos h1, if_neg (lt_irrefl 0)]

theorem stepChunk_fullRead (cfg : Config) (NDOF k : ℕ) (st : LoopSt)
    (h : (st.data.take (st.chunkSize * NDOF)).length = st.chunkSize * NDOF)
    (hpos : st.chunkSize * NDOF ≠ 0) :
    stepChunk cfg NDOF k st =
      processChunk cfg NDOF k false st.chunkSize st.oms
        (st.data.take (st.chunkSize * NDOF)) (st.data.drop (st.chunkSize * NDOF)) st := by
  simp only [stepChunk]
  rw [if_neg (by rw [h]; exact hpos), if_neg (by rw [h]; exact fun hc => hc rfl)]

theorem processChunk_reshape_err (cfg : Config) (NDOF k : ℕ) (exitFlag : Bool)
    (cS : ℕ) (oms2 velArray rest : List ℝ) (st : LoopSt)
    (h : velArray.length ≠ NDOF * cS) :
    processChunk cfg NDOF k exitFlag cS oms2 velArray rest st = .error .reshapeError := by
  simp only [processChunk]
  rw [if_pos h]

theorem processChunk_oms_err (cfg : Config) (NDOF k : ℕ) (exitFlag : Bool)
    (cS : ℕ) (oms2 velArray rest : List ℝ) (st : LoopSt)
    (K2 : ℕ → ℕ → ℝ) (vL2 vR2 : ℕ → ℕ → ℂ)
    (hre : velArray.length = NDOF * cS)
    (hproj : (if cfg.in_plane || cfg.out_of_plane then
        differDirection cfg.in_plane cfg.out_of_plane st.Kij
          (selRows cfg.ids_L (velFFTfun cfg.sampleTimestep velArray NDOF cS))
          (selRows cfg.ids_R (velFFTfun cfg.sampleTimestep velArray NDOF cS))
      else
        .ok (st.Kij,
          selRows cfg.ids_L (velFFTfun cfg.sampleTimestep velArray NDOF cS),
          selRows cfg.ids_R (velFFTfun cfg.sampleTimestep velArray NDOF cS))) = .ok (K2, vL2, vR2))
    (hlen : oms2.length < 2) :
    processChunk cfg NDOF k exitFlag cS oms2 velArray rest st = .error .omsIndexError := by
  simp only [processChunk]
  rw [if_neg (by rw [hre]; exact fun hc => hc rfl), hproj]
  simp only [Except.bind]
  rw [if_pos hlen]

theorem processChunk_ok_cont (cfg : Config) (NDOF k : ℕ)
    (cS : ℕ) (oms2 velArray rest : List ℝ) (st : LoopSt)
    (K2 : ℕ → ℕ → ℝ) (vL2 vR2 : ℕ → ℕ → ℂ)
    (hre : velArray.length = NDOF * cS)
    (hproj : (if cfg.in_plane || cfg.out_of_plane then
        differDirection cfg.in_plane cfg.out_of_plane st.Kij
          (selRows cfg.ids_L (velFFTfun cfg.sampleTimestep velArray NDOF cS))
          (selRows cfg.ids_R (velFFTfun cfg.sampleTimestep velArray NDOF cS))
      else
        .ok (st.Kij,
          selRows cfg.ids_L (velFFTfun cfg.sampleTimestep velArray NDOF cS),
          selRows cfg.ids_R (velFFTfun cfg.sampleTimestep velArray NDOF cS))) = .ok (K2, vL2, vR2))
    (hlen : 2 ≤ oms2.length)
    (hgw : 1 ≤ gwinOf cfg.widthWin (dfOf oms2))
    (hsl : (smoothen (chunkRawOf cfg cS K2 vL2 vR2 oms2) (dfOf oms2) cfg.widthWin).length
        = st.SHC_smooth.length)
    (hal : (chunkRawOf cfg cS K2 vL2 vR2 oms2).length = st.SHC_average.length) :
    processChunk cfg NDOF k false cS oms2 velArray rest st =
      .ok (true,
        { st with
          data := rest
          chunkSize := cS
          oms := oms2
          Kij := K2
          SHC_smooth := List.zipWith (aggStep k) st.SHC_smooth
            (smoothen (chunkRawOf cfg cS K2 vL2 vR2 oms2) (dfOf oms2) cfg.widthWin)
          SHC_smooth2 := List.zipWith (aggStep k) st.SHC_smooth2
            ((smoothen (chunkRawOf cfg cS K2 vL2 vR2 oms2) (dfOf oms2) cfg.widthWin).map
              fun x => x ^ 2)
          SHC_average := List.zipWith (aggStep k) st.SHC_average
            (chunkRawOf cfg cS K2 vL2 vR2 oms2) }) := by
  simp only [processChunk]
  rw [if_neg (by rw [hre]; exact fun hc => hc rfl), hproj]
  simp only [Except.bind]
  rw [if_neg (by omega), if_neg (by omega), if_pos trivial,
    if_neg (by push_neg; exact ⟨hsl, hal⟩)]

theorem processChunk_ok_exit (cfg : Config) (NDOF : ℕ)
    (cS : ℕ) (oms2 velArray rest : List ℝ) (st : LoopSt)
    (K2 : ℕ → ℕ → ℝ) (vL2 vR2 : ℕ → ℕ → ℂ)
    (hre : velArray.length = NDOF * cS)
    (hproj : (if cfg.in_plane || cfg.out_of_plane then
        differDirection cfg.in_plane cfg.out_of_plane st.Kij
          (selRows cfg.ids_L (velFFTfun cfg.sampleTimestep velArray NDOF cS))
          (selRows cfg.ids_R (velFFTfun cfg.sampleTimestep velArray NDOF cS))
      else
        .ok (st.Kij,
          selRows cfg.ids_L (velFFTfun cfg.sampleTimestep velArray NDOF cS),
          selRows cfg.ids_R (velFFTfun cfg.sampleTimestep velArray NDOF cS))) = .ok (K2, vL2, vR2))
    (hlen : 2 ≤ oms2.length)
    (hgw : 1 ≤ gwinOf cfg.widthWin (dfOf oms2)) :
    processChunk cfg NDOF 0 true cS oms2 velArray rest st =
      .ok (false,
        { st with
          data := rest
          chunkSize := cS
          oms := oms2
          Kij := K2
          SHC_smooth := smoothen (chunkRawOf cfg cS K2 vL2 vR2 oms2) (dfOf oms2) cfg.widthWin
          SHC_smooth2 := (smoothen (chunkRawOf cfg cS K2 vL2 vR2 oms2) (dfOf oms2)
            cfg.widthWin).map fun x => x ^ 2
          SHC_average := chunkRawOf cfg cS K2 vL2 vR2 oms2
          NChunks := 1 }) := by
  simp only [processChunk]
  rw [if_neg (by rw [hre]; exact fun hc => hc rfl), hproj]
  simp only [Except.bind]
  rw [if_neg (by omega), if_neg (by omega)]
  rfl

/-! ### C10: the force-constant matrix across a run -/

theorem processChunk_Kij_of_ok (cfg : Config) (NDOF k : ℕ) (exitFlag : Bool) (cS : ℕ)
    (oms2 velArray rest : List ℝ) (st : LoopSt) (b : Bool) (st2 : LoopSt)
    (hip : cfg.in_plane = false) (hop : cfg.out_of_plane = false)
    (h : processChunk cfg NDOF k exitFlag cS oms2 velArray rest st = .ok (b, st2)) :
    st2.Kij = st.Kij := by
  rw [processChunk] at h
  by_cases hre : velArray.length ≠ NDOF * cS
  · rw [if_pos hre] at h
    cases h
  · rw [if_neg hre, if_neg (by rw [hip, hop]; simp)] at h
    simp only [Except.bind] at h
    split_ifs at h <;> cases h <;> rfl

theorem stepChunk_Kij_of_ok (cfg : Config) (NDOF k : ℕ) (st : LoopSt) (b : Bool)
    (st2 : LoopSt) (hip : cfg.in_plane = false) (hop : cfg.out_of_plane = false)
    (h : stepChunk cfg NDOF k st = .ok (b, st2)) : st2.Kij = st.Kij := by
  rw [stepChunk] at h
  by_cases h0 : (st.data.take (st.chunkSize * NDOF)).length = 0
  · rw [if_pos h0] at h
    cases Except.ok.inj h
    rfl
  · rw [if_neg h0] at h
    by_cases h1 : (st.data.take (st.chunkSize * NDOF)).length = st.chunkSize * NDOF
    · rw [if_neg (not_not_intro h1)] at h
      exact processChunk_Kij_of_ok cfg NDOF k false st.chunkSize st.oms _ _ st b st2 hip hop h
    · rw [if_pos h1] at h
      by_cases hk : 0 < k
      · rw [if_pos hk] at h
        cases Except.ok.inj h
        rfl
      · rw [if_neg hk] at h
        exact processChunk_Kij_of_ok cfg NDOF k true _ _ _ _ st b st2 hip hop h

theorem chunkLoop_Kij_of_ok (cfg : Config) (NDOF : ℕ)
    (hip : cfg.in_plane = false) (hop : cfg.out_of_plane = false) :
    ∀ (fuel k : ℕ) (st st2 : LoopSt),
      chunkLoop cfg NDOF fuel k st = .ok st2 → st2.Kij = st.Kij := by
  intro fuel
  induction fuel with
  | zero =>
    intro k st st2 h
    rw [chunkLoop_zero] at h
    rw [← Except.ok.inj h]
  | succ n ih =>
    intro k st st2 h
    cases hstep : stepChunk cfg NDOF k st with
    | error e =>
      rw [chunkLoop_error cfg NDOF n k st e hstep] at h
      cases h
    | ok p =>
      obtain ⟨b, st3⟩ := p
      cases b with
      | false =>
        rw [chunkLoop_stop cfg NDOF n k st st3 hstep] at h
        rw [← Except.ok.inj h]
        exact stepChunk_Kij_of_ok cfg NDOF k st false st3 hip hop hstep
      | true =>
        rw [chunkLoop_cont cfg NDOF n k st st3 hstep] at h
        rw [ih (k + 1) st3 st2 h]
        exact stepChunk_Kij_of_ok cfg NDOF k st true st3 hip hop hstep

/-- C10 amended: when no projection flag is active, the force-constant matrix
is not mutated: every completed run ends with `Kij` equal to the loaded matrix.
(With a projection flag active the code zeroes rows of `Kij` in place, which is
what the counterexample exhibits.) -/
theorem C10_Kij_preserved_without_projection (cfg : Config) (s : VStream) (r : Result)
    (hip : cfg.in_plane = false) (hop : cfg.out_of_plane = false)
    (h : postProcess cfg s = .ok r) : r.Kij = cfg.Kij := by
  rw [postProcess] at h
  split_ifs at h with h1 h2 h3
  · cases hloop : chunkLoop cfg (3 * (cfg.NL + cfg.NR)) cfg.NChunks 0 (initSt cfg s) with
    | error e =>
      rw [hloop] at h
      cases h
    | ok st2 =>
      rw [hloop] at h
      simp only [Except.map] at h
      obtain rfl := Except.ok.inj h
      have hK := chunkLoop_Kij_of_ok cfg (3 * (cfg.NL + cfg.NR)) hip hop
        cfg.NChunks 0 (initSt cfg s) st2 hloop
      simpa [finalizeRun, initSt] using hK

/-! ### Invariant for runs of full-size chunks -/

/-- State invariant under which a full-size chunk is processed without error:
the running arrays match the grid length, the grid has at least two bins
(so `oms_fft[1]` exists), and the smoothing kernel is nonempty and no longer
than the grid (so the same-mode convolution keeps the length). -/
def goodSt (cfg : Config) (st : LoopSt) : Prop :=
  st.SHC_smooth.length = st.oms.length ∧
  st.SHC_smooth2.length = st.oms.length ∧
  st.SHC_average.length = st.oms.length ∧
  2 ≤ st.oms.length ∧
  1 ≤ gwinOf cfg.widthWin (dfOf st.oms) ∧
  (gaussKernel (gwinOf cfg.widthWin (dfOf st.oms))).length ≤ st.oms.length

theorem stepChunk_full_good (cfg : Config) (NDOF k : ℕ) (st : LoopSt)
    (hip : cfg.in_plane = false) (hop : cfg.out_of_plane = false)
    (hgood : goodSt cfg st)
    (hfull : (st.data.take (st.chunkSize * NDOF)).length = st.chunkSize * NDOF)
    (hpos : st.chunkSize * NDOF ≠ 0) :
    ∃ st2, stepChunk cfg NDOF k st = .ok (true, st2) ∧ goodSt cfg st2 ∧
      st2.data = st.data.drop (st.chunkSize * NDOF) ∧
      st2.chunkSize = st.chunkSize ∧ st2.oms = st.oms ∧
      st2.NChunks = st.NChunks ∧ st2.Kij = st.Kij := by
  obtain ⟨g1, g2, g3, g4, g5, g6⟩ := hgood
  have hre : (st.data.take (st.chunkSize * NDOF)).length = NDOF * st.chunkSize := by
    rw [hfull, Nat.mul_comm]
  have hproj : (if cfg.in_plane || cfg.out_of_plane then
      differDirection cfg.in_plane cfg.out_of_plane st.Kij
        (selRows cfg.ids_L (velFFTfun cfg.sampleTimestep
          (st.data.take (st.chunkSize * NDOF)) NDOF st.chunkSize))
        (selRows cfg.ids_R (velFFTfun cfg.sampleTimestep
          (st.data.take (st.chunkSize * NDOF)) NDOF st.chunkSize))
    else
      .ok (st.Kij,
        selRows cfg.ids_L (velFFTfun cfg.sampleTimestep
          (st.data.take (st.chunkSize * NDOF)) NDOF st.chunkSize),
        selRows cfg.ids_R (velFFTfun cfg.sampleTimestep
          (st.data.take (st.chunkSize * NDOF)) NDOF st.chunkSize))) =
      .ok (st.Kij,
        selRows cfg.ids_L (velFFTfun cfg.sampleTimestep
          (st.data.take (st.chunkSize * NDOF)) NDOF st.chunkSize),
        selRows cfg.ids_R (velFFTfun cfg.sampleTimestep
          (st.data.take (st.chunkSize * NDOF)) NDOF st.chunkSize)) := by
    rw [if_neg (by rw [hip, hop]; simp)]
  have hraw : (chunkRawOf cfg st.chunkSize st.Kij
      (selRows cfg.ids_L (velFFTfun cfg.sampleTimestep
        (st.data.take (st.chunkSize * NDOF)) NDOF st.chunkSize))
      (selRows cfg.ids_R (velFFTfun cfg.sampleTimestep
        (st.data.take (st.chunkSize * NDOF)) NDOF st.chunkSize)) st.oms).length
      = st.oms.length := length_chunkRawOf _ _ _ _ _ _
  have hsl : (smoothen (chunkRawOf cfg st.chunkSize st.Kij
      (selRows cfg.ids_L (velFFTfun cfg.sampleTimestep
        (st.data.take (st.chunkSize * NDOF)) NDOF st.chunkSize))
      (selRows cfg.ids_R (velFFTfun cfg.sampleTimestep
        (st.data.take (st.chunkSize * NDOF)) NDOF st.chunkSize)) st.oms)
      (dfOf st.oms) cfg.widthWin).length = st.oms.length := by
    rw [length_smoothen, hraw]
    omega
  have hQ : stepChunk cfg NDOF k st = processChunk cfg NDOF k false st.chunkSize st.oms
      (st.data.take (st.chunkSize * NDOF)) (st.data.drop (st.chunkSize * NDOF)) st :=
    stepChunk_fullRead cfg NDOF k st hfull hpos
  have hP := processChunk_ok_cont cfg NDOF k st.chunkSize st.oms
      (st.data.take (st.chunkSize * NDOF)) (st.data.drop (st.chunkSize * NDOF)) st
      st.Kij _ _ hre hproj g4 g5 (by rw [hsl, g1]) (by rw [hraw, g3])
  rw [hP] at hQ
  refine ⟨_, hQ, ?_, rfl, rfl, rfl, rfl, rfl⟩
  refine ⟨?_, ?_, ?_, g4, g5, g6⟩ <;>
    simp only [List.length_zipWith, List.length_map, hsl, hraw, g1, g2, g3, min_self]

theorem chunkLoop_fulls (cfg : Config) (NDOF : ℕ)
    (hip : cfg.in_plane = false) (hop : cfg.out_of_plane = false) :
    ∀ (j fuel k : ℕ) (st : LoopSt), goodSt cfg st →
      j * (st.chunkSize * NDOF) ≤ st.data.length →
      st.chunkSize * NDOF ≠ 0 →
      j ≤ fuel →
      ∃ st2, chunkLoop cfg NDOF fuel k st = chunkLoop cfg NDOF (fuel - j) (k + j) st2 ∧
        goodSt cfg st2 ∧ st2.data = st.data.drop (j * (st.chunkSize * NDOF)) ∧
        st2.chunkSize = st.chunkSize ∧ st2.oms = st.oms ∧ st2.NChunks = st.NChunks := by
  intro j
  induction j with
  | zero =>
    intro fuel k st hgood _ _ _
    exact ⟨st, by rw [Nat.sub_zero, Nat.add_zero], hgood, by rw [Nat.zero_mul, List.drop_zero],
      rfl, rfl, rfl⟩
  | succ j ih =>
    intro fuel k st hgood hdata hpos hfuel
    obtain ⟨f, rfl⟩ : ∃ f, fuel = f + 1 := ⟨fuel - 1, by omega⟩
    have hcle : st.chunkSize * NDOF ≤ st.data.length := by
      calc st.chunkSize * NDOF ≤ (j + 1) * (st.chunkSize * NDOF) := by
            exact Nat.le_mul_of_pos_left _ (by omega)
        _ ≤ st.data.length := hdata
    have hfull : (st.data.take (st.chunkSize * NDOF)).length = st.chunkSize * NDOF := by
      rw [List.length_take]
      omega
    obtain ⟨st1, hstep, hgood1, hd1, hc1, ho1, hn1, _⟩ :=
      stepChunk_full_good cfg NDOF k st hip hop hgood hfull hpos
    have hd1len : st1.data.length = st.data.length - st.chunkSize * NDOF := by
      rw [hd1, List.length_drop]
    obtain ⟨st2, hloop, hgood2, hd2, hc2, ho2, hn2⟩ :=
      ih f (k + 1) st1 hgood1
        (by rw [hd1len, hc1]; rw [Nat.succ_mul] at hdata; omega)
        (by rw [hc1]; exact hpos)
        (by omega)
    refine ⟨st2, ?_, hgood2, ?_, by rw [hc2, hc1], by rw [ho2, ho1], by rw [hn2, hn1]⟩
    · rw [chunkLoop_cont cfg NDOF f k st st1 hstep, hloop]
      congr 1
      · omega
      · omega
    · rw [hd2, hc1, hd1, List.drop_drop]
      congr 1
      ring

/-! ### Concrete-run helpers -/

theorem dfOf_omsList (N : ℕ) (d : ℝ) (hN : 2 ≤ N) :
    dfOf (omsList N d) = 1 / ((N : ℝ) * d) := by
  have h1 : (1 : ℕ) < N / 2 + 1 := by omega
  have h0 : (0 : ℕ) < N / 2 + 1 := by omega
  rw [dfOf, omsList, getD_map_range _ _ _ h1, getD_map_range _ _ _ h0]
  rw [Nat.cast_zero, zero_div, mul_zero, sub_zero, Nat.cast_one]
  rw [mul_comm (2 * Real.pi), mul_div_assoc, div_self (by positivity), mul_one]

theorem postProcess_mkStream (cfg : Config) (data : List ℝ)
    (hNLR : cfg.NL + cfg.NR = 2)
    (hstride : cfg.dt_md = cfg.sampleTimestep)
    (hii : cfg.inds_interface = [5, 6]) :
    postProcess cfg (mkStream data) =
      Except.map finalizeRun
        (chunkLoop cfg (3 * (cfg.NL + cfg.NR)) cfg.NChunks 0 (initSt cfg (mkStream data))) := by
  apply postProcess_header
  · exact hNLR.symm
  · show ((1 : ℕ) : ℝ) * cfg.dt_md = cfg.sampleTimestep
    rw [Nat.cast_one, one_mul, hstride]
  · intro j hj
    rw [hii]
    have hj2 : j < 2 := List.mem_range.mp hj
    interval_cases j <;> rfl

theorem gwinOf_identity : gwinOf (1 / 8 : ℝ) (1 / 4) = 1 := by
  have hc2 : ⌈(1 / 8 : ℝ) / (1 / 4)⌉ = 1 := by
    rw [show ((1 / 8 : ℝ) / (1 / 4)) = 1 / 2 by norm_num, Int.ceil_eq_iff]
    norm_num
  simp only [gwinOf, hc2]
  norm_num

theorem gaussKernel_one : gaussKernel 1 = [1] := by
  simp [gaussKernel]

theorem goodSt_init4 (cfg : Config) (s : VStream)
    (hc : cfg.chunkSize = 4) (hts : cfg.sampleTimestep = 1) (hw : cfg.widthWin = 1 / 8) :
    goodSt cfg (initSt cfg s) := by
  have hdf : dfOf (omsList cfg.chunkSize cfg.sampleTimestep) = 1 / 4 := by
    rw [hc, hts, dfOf_omsList 4 1 (by norm_num)]
    norm_num
  have hgw : gwinOf cfg.widthWin (dfOf (omsList cfg.chunkSize cfg.sampleTimestep)) = 1 := by
    rw [hdf, hw, gwinOf_identity]
  refine ⟨?_, ?_, ?_, ?_, ?_, ?_⟩
  · simp [initSt]
  · simp [initSt]
  · simp [initSt]
  · show 2 ≤ (omsList cfg.chunkSize cfg.sampleTimestep).length
    rw [length_omsList, hc]
    norm_num
  · show 1 ≤ gwinOf cfg.widthWin (dfOf (omsList cfg.chunkSize cfg.sampleTimestep))
    rw [hgw]
  · show (gaussKernel (gwinOf cfg.widthWin
        (dfOf (omsList cfg.chunkSize cfg.sampleTimestep)))).length
      ≤ (omsList cfg.chunkSize cfg.sampleTimestep).length
    rw [hgw, gaussKernel_one, length_omsList, hc]
    norm_num

/-! ### C5: error estimate after a truncated run -/

def cfgC5 : Config := { cfgA with NChunks := 3 }

def dataC5 : List ℝ := List.replicate 48 0

/-- C5 (code behavior at the failing input): a stream holding exactly two full
chunks, with three chunks requested, folds two chunks into the aggregator but
reaches the empty read with `NChunks` set to `k - 1 = 1`, so finalization skips
the error estimate: `SHC_error` is `None` even though two chunks were folded
in, contradicting both the claim's formula case and the class docstring. -/
theorem C5_two_chunks_folded_error_none :
    (postProcess cfgC5 (mkStream dataC5)).map (fun r => (r.NChunks, r.SHC_error))
      = .ok ((1 : ℤ), none) := by
  rw [postProcess_mkStream cfgC5 dataC5 rfl rfl rfl]
  obtain ⟨st2, hloop, hgood2, hd2, hc2, ho2, hn2⟩ :=
    chunkLoop_fulls cfgC5 (3 * (cfgC5.NL + cfgC5.NR)) rfl rfl 2 cfgC5.NChunks 0
      (initSt cfgC5 (mkStream dataC5))
      (goodSt_init4 cfgC5 _ rfl rfl rfl)
      (by simp [initSt, mkStream, dataC5, cfgC5, cfgA])
      (by simp [initSt, cfgC5, cfgA])
      (by norm_num [cfgC5, cfgA])
  rw [hloop]
  have hd2e : st2.data = [] := by
    rw [hd2]
    simp [initSt, mkStream, dataC5, cfgC5, cfgA]
  have htake : (st2.data.take (st2.chunkSize * (3 * (cfgC5.NL + cfgC5.NR)))).length = 0 := by
    rw [hd2e]
    simp
  have hstep := stepChunk_empty cfgC5 (3 * (cfgC5.NL + cfgC5.NR)) 2 st2 htake
  rw [show cfgC5.NChunks - 2 = 0 + 1 by norm_num [cfgC5, cfgA], show 0 + 2 = 2 by norm_num]
  rw [chunkLoop_stop cfgC5 (3 * (cfgC5.NL + cfgC5.NR)) 0 2 st2 _ hstep]
  simp only [Except.map, finalizeRun]
  norm_num

/-! ### C2: reported chunk count after a short later read -/

def cfgC2 : Config := { cfgA with NChunks := 5 }

def dataC2 : List ℝ := List.replicate 84 0

/-- C2 (code behavior at the failing input): a stream holding exactly three
full chunks plus one partial chunk, with five chunks requested, is reported
with a final chunk count of `2`, not `3`: the short read at chunk index
`k = 3` sets `NChunks = k - 1 = 2`, dropping one completed chunk from the
count. -/
theorem C2_short_later_reports_two :
    (postProcess cfgC2 (mkStream dataC2)).map (fun r => r.NChunks) = .ok (2 : ℤ) := by
  rw [postProcess_mkStream cfgC2 dataC2 rfl rfl rfl]
  obtain ⟨st2, hloop, hgood2, hd2, hc2, ho2, hn2⟩ :=
    chunkLoop_fulls cfgC2 (3 * (cfgC2.NL + cfgC2.NR)) rfl rfl 3 cfgC2.NChunks 0
      (initSt cfgC2 (mkStream dataC2))
      (goodSt_init4 cfgC2 _ rfl rfl rfl)
      (by simp [initSt, mkStream, dataC2, cfgC2, cfgA])
      (by simp [initSt, cfgC2, cfgA])
      (by norm_num [cfgC2, cfgA])
  rw [hloop]
  have hd2e : st2.data = List.replicate 12 0 := by
    rw [hd2]
    simp [initSt, mkStream, dataC2, cfgC2, cfgA]
  have hcs : st2.chunkSize * (3 * (cfgC2.NL + cfgC2.NR)) = 24 := by
    rw [hc2]
    simp [initSt, cfgC2, cfgA]
  have htake0 : (st2.data.take (st2.chunkSize * (3 * (cfgC2.NL + cfgC2.NR)))).length ≠ 0 := by
    rw [hd2e, hcs]
    simp
  have htake1 : (st2.data.take (st2.chunkSize * (3 * (cfgC2.NL + cfgC2.NR)))).length
      ≠ st2.chunkSize * (3 * (cfgC2.NL + cfgC2.NR)) := by
    rw [hd2e, hcs]
    simp
  have hstep := stepChunk_shortLater cfgC2 (3 * (cfgC2.NL + cfgC2.NR)) 3 st2
    htake0 htake1 (by norm_num)
  rw [show cfgC2.NChunks - 3 = 1 + 1 by norm_num [cfgC2, cfgA], show 0 + 3 = 3 by norm_num]
  rw [chunkLoop_stop cfgC2 (3 * (cfgC2.NL + cfgC2.NR)) 1 3 st2 _ hstep]
  simp only [Except.map, finalizeRun]
  norm_num

/-! ### C4: empty first read -/

theorem idsMatch_mk (cfg : Config) (data : List ℝ)
    (hii : cfg.inds_interface = [5, 6]) : idsMatch cfg (mkStream data) := by
  intro j hj
  rw [hii]
  have hj2 : j < 2 := List.mem_range.mp hj
  interval_cases j <;> rfl

def cfgC4 : Config := { cfgA with NChunks := 2 }

/-- C4 counterexample: with a valid header and an empty velocity stream (empty
first read, zero chunks completed) the run does not fail: it completes and
returns a result, with `NChunks = -1` and `SHC_error = None`.  No fatal
"no usable data" error exists in the code. -/
theorem C4_empty_first_read_returns_result :
    (postProcess cfgC4 (mkStream [])).map (fun r => (r.NChunks, r.SHC_error))
      = .ok ((-1 : ℤ), none) := by
  rw [postProcess_mkStream cfgC4 [] rfl rfl rfl]
  have htake : ((initSt cfgC4 (mkStream [])).data.take
      ((initSt cfgC4 (mkStream [])).chunkSize * (3 * (cfgC4.NL + cfgC4.NR)))).length = 0 := by
    simp [initSt, mkStream]
  rw [show cfgC4.NChunks = 1 + 1 by norm_num [cfgC4, cfgA]]
  rw [chunkLoop_stop cfgC4 (3 * (cfgC4.NL + cfgC4.NR)) 1 0 _ _
    (stepChunk_empty cfgC4 (3 * (cfgC4.NL + cfgC4.NR)) 0 _ htake)]
  simp only [Except.map, finalizeRun]
  norm_num

/-- C4 amended: if the stream ends with an empty first read (zero chunks
completed), the run does not fail; it completes and returns a result whose
chunk count is `-1`, whose error output is `None`, and whose curves are the
zero-initialized arrays. -/
theorem C4_empty_first_read_completes (cfg : Config) (s : VStream)
    (h1 : s.Natoms = cfg.NL + cfg.NR)
    (h2 : (s.strideHeader : ℝ) * cfg.dt_md = cfg.sampleTimestep)
    (h3 : idsMatch cfg s)
    (hdata : s.data = [])
    (hN : 1 ≤ cfg.NChunks) :
    postProcess cfg s = .ok
      { NChunks := -1
        oms_fft := omsList cfg.chunkSize cfg.sampleTimestep
        SHC_smooth := List.replicate (omsList cfg.chunkSize cfg.sampleTimestep).length 0
        SHC_smooth2 := List.replicate (omsList cfg.chunkSize cfg.sampleTimestep).length 0
        SHC_average := List.replicate (omsList cfg.chunkSize cfg.sampleTimestep).length 0
        SHC_error := none
        Kij := cfg.Kij } := by
  rw [postProcess_header cfg s h1 h2 h3]
  obtain ⟨f, hf⟩ : ∃ f, cfg.NChunks = f + 1 := ⟨cfg.NChunks - 1, by omega⟩
  rw [hf]
  have htake : ((initSt cfg s).data.take
      ((initSt cfg s).chunkSize * (3 * (cfg.NL + cfg.NR)))).length = 0 := by
    simp [initSt, hdata]
  rw [chunkLoop_stop cfg (3 * (cfg.NL + cfg.NR)) f 0 _ _
    (stepChunk_empty cfg (3 * (cfg.NL + cfg.NR)) 0 _ htake)]
  simp only [Except.map, finalizeRun, initSt]
  norm_num

def cfgW4 : Config := { cfgA with NChunks := 1 }

/-- Witness for the amended C4 at a concrete input. -/
theorem C4_empty_first_read_completes_witness :
    (mkStream []).Natoms = cfgW4.NL + cfgW4.NR ∧
    ((mkStream []).strideHeader : ℝ) * cfgW4.dt_md = cfgW4.sampleTimestep ∧
    idsMatch cfgW4 (mkStream []) ∧
    (mkStream ([] : List ℝ)).data = [] ∧
    1 ≤ cfgW4.NChunks ∧
    postProcess cfgW4 (mkStream []) = .ok
      { NChunks := -1
        oms_fft := omsList cfgW4.chunkSize cfgW4.sampleTimestep
        SHC_smooth := List.replicate (omsList cfgW4.chunkSize cfgW4.sampleTimestep).length 0
        SHC_smooth2 := List.replicate (omsList cfgW4.chunkSize cfgW4.sampleTimestep).length 0
        SHC_average := List.replicate (omsList cfgW4.chunkSize cfgW4.sampleTimestep).length 0
        SHC_error := none
        Kij := cfgW4.Kij } :=
  ⟨rfl, by norm_num [mkStream, cfgW4, cfgA], idsMatch_mk cfgW4 [] rfl, rfl,
    by norm_num [cfgW4, cfgA],
    C4_empty_first_read_completes cfgW4 (mkStream []) rfl
      (by norm_num [mkStream, cfgW4, cfgA]) (idsMatch_mk cfgW4 [] rfl) rfl
      (by norm_num [cfgW4, cfgA])⟩

/-! ### C7: both projection flags set -/

def cfgC9 : Config := { cfgA with NChunks := 2 }

/-- C9 counterexample: a first read of 7 samples with `NDOF = 6` (a count that
is not a multiple of `NDOF`) drives the short-first-read path into a reshape
of 7 values into a `6 x 1` matrix, which raises — the short-read path is not
failure-free. -/
theorem C9_nonmultiple_short_read_raises :
    postProcess cfgC9 (mkStream (List.replicate 7 0)) = .error .reshapeError := by
  rw [postProcess_mkStream cfgC9 _ rfl rfl rfl]
  rw [show cfgC9.NChunks = 1 + 1 by norm_num [cfgC9, cfgA]]
  have h0 : (((initSt cfgC9 (mkStream (List.replicate 7 0))).data.take
      ((initSt cfgC9 (mkStream (List.replicate 7 0))).chunkSize
        * (3 * (cfgC9.NL + cfgC9.NR)))).length) ≠ 0 := by
    simp [initSt, mkStream, cfgC9, cfgA]
  have h1 : (((initSt cfgC9 (mkStream (List.replicate 7 0))).data.take
      ((initSt cfgC9 (mkStream (List.replicate 7 0))).chunkSize
        * (3 * (cfgC9.NL + cfgC9.NR)))).length)
      ≠ (initSt cfgC9 (mkStream (List.replicate 7 0))).chunkSize
        * (3 * (cfgC9.NL + cfgC9.NR)) := by
    simp [initSt, mkStream, cfgC9, cfgA]
  have hstep : stepChunk cfgC9 (3 * (cfgC9.NL + cfgC9.NR)) 0
      (initSt cfgC9 (mkStream (List.replicate 7 0))) = .error .reshapeError := by
    rw [stepChunk_shortFirst cfgC9 (3 * (cfgC9.NL + cfgC9.NR)) _ h0 h1]
    apply processChunk_reshape_err
    simp [initSt, mkStream, cfgC9, cfgA]
  rw [chunkLoop_error cfgC9 (3 * (cfgC9.NL + cfgC9.NR)) 1 0 _ _ hstep]
  rfl

/-- C9 amended: short reads on a later chunk (index `> 0`) never raise,
regardless of whether the short count is a multiple of `NDOF`: the partial
chunk is discarded before any reshape, and the run completes with a result
(reporting, per the code's off-by-one, `NChunks = j - 1` after `j` full
chunks).  On the very first chunk a short read only completes safely when the
count is a multiple of `NDOF` of at least two samples. -/
theorem C9_short_late_read_completes (cfg : Config) (s : VStream) (j p : ℕ)
    (h1 : s.Natoms = cfg.NL + cfg.NR)
    (h2 : (s.strideHeader : ℝ) * cfg.dt_md = cfg.sampleTimestep)
    (h3 : idsMatch cfg s)
    (hip : cfg.in_plane = false) (hop : cfg.out_of_plane = false)
    (hgood : goodSt cfg (initSt cfg s))
    (hdata : s.data.length = j * (cfg.chunkSize * (3 * (cfg.NL + cfg.NR))) + p)
    (hp0 : 0 < p) (hps : p < cfg.chunkSize * (3 * (cfg.NL + cfg.NR)))
    (hj : 1 ≤ j) (hfuel : j < cfg.NChunks) :
    ∃ r, postProcess cfg s = .ok r ∧ r.NChunks = (j : ℤ) - 1 := by
  rw [postProcess_header cfg s h1 h2 h3]
  obtain ⟨st2, hloop, hgood2, hd2, hc2, ho2, hn2⟩ :=
    chunkLoop_fulls cfg (3 * (cfg.NL + cfg.NR)) hip hop j cfg.NChunks 0 (initSt cfg s) hgood
      (by simp only [initSt]; omega)
      (by simp only [initSt]; omega)
      (le_of_lt hfuel)
  rw [hloop]
  obtain ⟨f, hf⟩ : ∃ f, cfg.NChunks - j = f + 1 := ⟨cfg.NChunks - j - 1, by omega⟩
  rw [hf]
  have hd2len : st2.data.length = p := by
    rw [hd2, List.length_drop]
    simp only [initSt]
    omega
  have htklen : (st2.data.take (st2.chunkSize * (3 * (cfg.NL + cfg.NR)))).length = p := by
    rw [List.length_take, hd2len, hc2]
    simp only [initSt]
    omega
  have hstep := stepChunk_shortLater cfg (3 * (cfg.NL + cfg.NR)) (0 + j) st2
    (by rw [htklen]; omega)
    (by rw [htklen, hc2]; simp only [initSt]; omega)
    (by omega)
  rw [chunkLoop_stop cfg (3 * (cfg.NL + cfg.NR)) f (0 + j) st2 _ hstep]
  refine ⟨_, rfl, ?_⟩
  simp only [finalizeRun]
  push_cast
  ring

def cfgW9 : Config := { cfgA with NChunks := 3 }

/-- Witness for the amended C9: one full chunk followed by a 5-sample partial
read (5 is not a multiple of `NDOF = 6`); the run completes. -/
theorem C9_short_late_read_completes_witness :
    (mkStream (List.replicate 29 0)).Natoms = cfgW9.NL + cfgW9.NR ∧
    goodSt cfgW9 (initSt cfgW9 (mkStream (List.replicate 29 0))) ∧
    (mkStream (List.replicate 29 0)).data.length
      = 1 * (cfgW9.chunkSize * (3 * (cfgW9.NL + cfgW9.NR))) + 5 ∧
    0 < 5 ∧ 5 < cfgW9.chunkSize * (3 * (cfgW9.NL + cfgW9.NR)) ∧ 1 < cfgW9.NChunks ∧
    ∃ r, postProcess cfgW9 (mkStream (List.replicate 29 0)) = .ok r ∧
      r.NChunks = (1 : ℤ) - 1 :=
  ⟨rfl, goodSt_init4 cfgW9 _ rfl rfl rfl,
    by norm_num [mkStream, cfgW9, cfgA],
    by norm_num, by norm_num [cfgW9, cfgA], by norm_num [cfgW9, cfgA],
    C9_short_late_read_completes cfgW9 (mkStream (List.replicate 29 0)) 1 5 rfl
      (by norm_num [mkStream, cfgW9, cfgA]) (idsMatch_mk cfgW9 _ rfl) rfl rfl
      (goodSt_init4 cfgW9 _ rfl rfl rfl)
      (by norm_num [mkStream, cfgW9, cfgA])
      (by norm_num) (by norm_num [cfgW9, cfgA]) (le_refl 1)
      (by norm_num [cfgW9, cfgA])⟩

/-! ### C8: short first read -/

def cfgC8 : Config := { cfgA with NChunks := 2 }

/-- C8 counterexample: a short first read of exactly `NDOF = 6` samples (one
timestep, so the reduced chunk length is 1) does not produce a single-chunk
result: the rebuilt grid has a single bin, and the spacing computation
`oms_fft[1]` raises an IndexError, so the run fails instead of reporting a
chunk count of 1. -/
theorem C8_one_timestep_short_read_raises :
    postProcess cfgC8 (mkStream (List.replicate 6 0)) = .error .omsIndexError := by
  rw [postProcess_mkStream cfgC8 _ rfl rfl rfl]
  rw [show cfgC8.NChunks = 1 + 1 by norm_num [cfgC8, cfgA]]
  have h0 : (((initSt cfgC8 (mkStream (List.replicate 6 0))).data.take
      ((initSt cfgC8 (mkStream (List.replicate 6 0))).chunkSize
        * (3 * (cfgC8.NL + cfgC8.NR)))).length) ≠ 0 := by
    simp [initSt, mkStream, cfgC8, cfgA]
  have h1 : (((initSt cfgC8 (mkStream (List.replicate 6 0))).data.take
      ((initSt cfgC8 (mkStream (List.replicate 6 0))).chunkSize
        * (3 * (cfgC8.NL + cfgC8.NR)))).length)
      ≠ (initSt cfgC8 (mkStream (List.replicate 6 0))).chunkSize
        * (3 * (cfgC8.NL + cfgC8.NR)) := by
    simp [initSt, mkStream, cfgC8, cfgA]
  have hstep : stepChunk cfgC8 (3 * (cfgC8.NL + cfgC8.NR)) 0
      (initSt cfgC8 (mkStream (List.replicate 6 0))) = .error .omsIndexError := by
    rw [stepChunk_shortFirst cfgC8 (3 * (cfgC8.NL + cfgC8.NR)) _ h0 h1]
    apply processChunk_oms_err _ _ _ _ _ _ _ _ _
      (initSt cfgC8 (mkStream (List.replicate 6 0))).Kij _ _
    · simp [initSt, mkStream, cfgC8, cfgA]
    · rw [if_neg (by norm_num [cfgC8, cfgA])]
    · rw [length_omsList]
      simp [initSt, mkStream, cfgC8, cfgA]
  rw [chunkLoop_error cfgC8 (3 * (cfgC8.NL + cfgC8.NR)) 1 0 _ _ hstep]
  rfl

/-- C8 amended: a short first read whose sample count is `m * NDOF` with
`2 ≤ m < chunkSize` (so that the reshape fits and `oms_fft[1]` exists)
does rebuild the grid to length `m/2 + 1`, seeds the aggregator directly from
that single chunk's raw and smoothed curves, reports a chunk count of exactly
1, and completes without touching further data.  (Counts that are not such
multiples raise instead, which the counterexample exhibits.) -/
theorem C8_short_first_read_rebuilds (cfg : Config) (s : VStream) (m : ℕ)
    (h1 : s.Natoms = cfg.NL + cfg.NR)
    (h2 : (s.strideHeader : ℝ) * cfg.dt_md = cfg.sampleTimestep)
    (h3 : idsMatch cfg s)
    (hip : cfg.in_plane = false) (hop : cfg.out_of_plane = false)
    (hdata : s.data.length = m * (3 * (cfg.NL + cfg.NR)))
    (hm2 : 2 ≤ m) (hms : m < cfg.chunkSize)
    (hpos : 0 < cfg.NL + cfg.NR)
    (hgw : 1 ≤ gwinOf cfg.widthWin (dfOf (omsList m cfg.sampleTimestep)))
    (hN : 1 ≤ cfg.NChunks) :
    (omsList m cfg.sampleTimestep).length = m / 2 + 1 ∧
    postProcess cfg s = .ok
      { NChunks := 1
        oms_fft := omsList m cfg.sampleTimestep
        SHC_smooth := smoothen
          (chunkRawOf cfg m cfg.Kij
            (selRows cfg.ids_L (velFFTfun cfg.sampleTimestep s.data (3 * (cfg.NL + cfg.NR)) m))
            (selRows cfg.ids_R (velFFTfun cfg.sampleTimestep s.data (3 * (cfg.NL + cfg.NR)) m))
            (omsList m cfg.sampleTimestep))
          (dfOf (omsList m cfg.sampleTimestep)) cfg.widthWin
        SHC_smooth2 := (smoothen
          (chunkRawOf cfg m cfg.Kij
            (selRows cfg.ids_L (velFFTfun cfg.sampleTimestep s.data (3 * (cfg.NL + cfg.NR)) m))
            (selRows cfg.ids_R (velFFTfun cfg.sampleTimestep s.data (3 * (cfg.NL + cfg.NR)) m))
            (omsList m cfg.sampleTimestep))
          (dfOf (omsList m cfg.sampleTimestep)) cfg.widthWin).map fun x => x ^ 2
        SHC_average := chunkRawOf cfg m cfg.Kij
          (selRows cfg.ids_L (velFFTfun cfg.sampleTimestep s.data (3 * (cfg.NL + cfg.NR)) m))
          (selRows cfg.ids_R (velFFTfun cfg.sampleTimestep s.data (3 * (cfg.NL + cfg.NR)) m))
          (omsList m cfg.sampleTimestep)
        SHC_error := none
        Kij := cfg.Kij } := by
  have hNDOF : 0 < 3 * (cfg.NL + cfg.NR) := by omega
  refine ⟨length_omsList m cfg.sampleTimestep, ?_⟩
  rw [postProcess_header cfg s h1 h2 h3]
  obtain ⟨f, hf⟩ : ∃ f, cfg.NChunks = f + 1 := ⟨cfg.NChunks - 1, by omega⟩
  rw [hf]
  have htk : (initSt cfg s).data.take
      ((initSt cfg s).chunkSize * (3 * (cfg.NL + cfg.NR))) = s.data := by
    refine List.take_of_length_le ?_
    show s.data.length ≤ cfg.chunkSize * (3 * (cfg.NL + cfg.NR))
    rw [hdata]
    exact Nat.mul_le_mul_right _ (le_of_lt hms)
  have htklen : ((initSt cfg s).data.take
      ((initSt cfg s).chunkSize * (3 * (cfg.NL + cfg.NR)))).length
      = m * (3 * (cfg.NL + cfg.NR)) := by
    rw [htk, hdata]
  have h0 : ((initSt cfg s).data.take
      ((initSt cfg s).chunkSize * (3 * (cfg.NL + cfg.NR)))).length ≠ 0 := by
    rw [htklen]
    positivity
  have h1r : ((initSt cfg s).data.take
      ((initSt cfg s).chunkSize * (3 * (cfg.NL + cfg.NR)))).length
      ≠ (initSt cfg s).chunkSize * (3 * (cfg.NL + cfg.NR)) := by
    rw [htklen]
    show m * (3 * (cfg.NL + cfg.NR)) ≠ cfg.chunkSize * (3 * (cfg.NL + cfg.NR))
    have := (Nat.mul_lt_mul_right hNDOF).mpr hms
    omega
  have hdiv : ((initSt cfg s).data.take
      ((initSt cfg s).chunkSize * (3 * (cfg.NL + cfg.NR)))).length
      / (3 * (cfg.NL + cfg.NR)) = m := by
    rw [htklen, Nat.mul_div_cancel _ hNDOF]
  have hstep : stepChunk cfg (3 * (cfg.NL + cfg.NR)) 0 (initSt cfg s)
      = .ok (false,
        { initSt cfg s with
          data := (initSt cfg s).data.drop
            ((initSt cfg s).chunkSize * (3 * (cfg.NL + cfg.NR)))
          chunkSize := m
          oms := omsList m cfg.sampleTimestep
          Kij := (initSt cfg s).Kij
          SHC_smooth := smoothen
            (chunkRawOf cfg m (initSt cfg s).Kij
              (selRows cfg.ids_L
                (velFFTfun cfg.sampleTimestep s.data (3 * (cfg.NL + cfg.NR)) m))
              (selRows cfg.ids_R
                (velFFTfun cfg.sampleTimestep s.data (3 * (cfg.NL + cfg.NR)) m))
              (omsList m cfg.sampleTimestep))
            (dfOf (omsList m cfg.sampleTimestep)) cfg.widthWin
          SHC_smooth2 := (smoothen
            (chunkRawOf cfg m (initSt cfg s).Kij
              (selRows cfg.ids_L
                (velFFTfun cfg.sampleTimestep s.data (3 * (cfg.NL + cfg.NR)) m))
              (selRows cfg.ids_R
                (velFFTfun cfg.sampleTimestep s.data (3 * (cfg.NL + cfg.NR)) m))
              (omsList m cfg.sampleTimestep))
            (dfOf (omsList m cfg.sampleTimestep)) cfg.widthWin).map fun x => x ^ 2
          SHC_average := chunkRawOf cfg m (initSt cfg s).Kij
            (selRows cfg.ids_L
              (velFFTfun cfg.sampleTimestep s.data (3 * (cfg.NL + cfg.NR)) m))
            (selRows cfg.ids_R
              (velFFTfun cfg.sampleTimestep s.data (3 * (cfg.NL + cfg.NR)) m))
            (omsList m cfg.sampleTimestep)
          NChunks := 1 }) := by
    rw [stepChunk_shortFirst cfg (3 * (cfg.NL + cfg.NR)) _ h0 h1r, hdiv, htk]
    exact processChunk_ok_exit cfg (3 * (cfg.NL + cfg.NR)) m
      (omsList m cfg.sampleTimestep) s.data _ (initSt cfg s) (initSt cfg s).Kij _ _
      (by rw [hdata, Nat.mul_comm])
      (by rw [if_neg (by rw [hip, hop]; simp)])
      (by rw [length_omsList]; omega)
      hgw
  rw [chunkLoop_stop cfg (3 * (cfg.NL + cfg.NR)) f 0 _ _ hstep]
  simp only [Except.map, finalizeRun, initSt]
  norm_num

def cfgW8 : Config := { cfgA with NChunks := 2 }

/-- Witness for the amended C8: a short first read of `2 * NDOF = 12` samples
(`m = 2` timesteps) against a requested chunk size of 4. -/
theorem C8_short_first_read_rebuilds_witness :
    (mkStream (List.replicate 12 0)).Natoms = cfgW8.NL + cfgW8.NR ∧
    (mkStream (List.replicate 12 0)).data.length = 2 * (3 * (cfgW8.NL + cfgW8.NR)) ∧
    2 < cfgW8.chunkSize ∧ 1 ≤ cfgW8.NChunks ∧
    ((omsList 2 cfgW8.sampleTimestep).length = 2 / 2 + 1 ∧
      postProcess cfgW8 (mkStream (List.replicate 12 0)) = .ok
        { NChunks := 1
          oms_fft := omsList 2 cfgW8.sampleTimestep
          SHC_smooth := smoothen
            (chunkRawOf cfgW8 2 cfgW8.Kij
              (selRows cfgW8.ids_L (velFFTfun cfgW8.sampleTimestep
                (mkStream (List.replicate 12 0)).data (3 * (cfgW8.NL + cfgW8.NR)) 2))
              (selRows cfgW8.ids_R (velFFTfun cfgW8.sampleTimestep
                (mkStream (List.replicate 12 0)).data (3 * (cfgW8.NL + cfgW8.NR)) 2))
              (omsList 2 cfgW8.sampleTimestep))
            (dfOf (omsList 2 cfgW8.sampleTimestep)) cfgW8.widthWin
          SHC_smooth2 := (smoothen
            (chunkRawOf cfgW8 2 cfgW8.Kij
              (selRows cfgW8.ids_L (velFFTfun cfgW8.sampleTimestep
                (mkStream (List.replicate 12 0)).data (3 * (cfgW8.NL + cfgW8.NR)) 2))
              (selRows cfgW8.ids_R (velFFTfun cfgW8.sampleTimestep
                (mkStream (List.replicate 12 0)).data (3 * (cfgW8.NL + cfgW8.NR)) 2))
              (omsList 2 cfgW8.sampleTimestep))
            (dfOf (omsList 2 cfgW8.sampleTimestep)) cfgW8.widthWin).map fun x => x ^ 2
          SHC_average := chunkRawOf cfgW8 2 cfgW8.Kij
            (selRows cfgW8.ids_L (velFFTfun cfgW8.sampleTimestep
              (mkStream (List.replicate 12 0)).data (3 * (cfgW8.NL + cfgW8.NR)) 2))
            (selRows cfgW8.ids_R (velFFTfun cfgW8.sampleTimestep
              (mkStream (List.replicate 12 0)).data (3 * (cfgW8.NL + cfgW8.NR)) 2))
            (omsList 2 cfgW8.sampleTimestep)
          SHC_error := none
          Kij := cfgW8.Kij }) :=
  ⟨rfl, by norm_num [mkStream, cfgW8, cfgA], by norm_num [cfgW8, cfgA],
    by norm_num [cfgW8, cfgA],
    C8_short_first_read_rebuilds cfgW8 (mkStream (List.replicate 12 0)) 2 rfl
      (by norm_num [mkStream, cfgW8, cfgA]) (idsMatch_mk cfgW8 _ rfl) rfl rfl
      (by norm_num [mkStream, cfgW8, cfgA]) (le_refl 2)
      (by norm_num [cfgW8, cfgA]) (by norm_num [cfgW8, cfgA])
      (by rw [show dfOf (omsList 2 cfgW8.sampleTimestep) = 1 / 2 by
            rw [show cfgW8.sampleTimestep = (1 : ℝ) from rfl,
              dfOf_omsList 2 1 (le_refl 2)]
            norm_num]
          rw [show cfgW8.widthWin = (1 / 8 : ℝ) from rfl]
          rw [show gwinOf (1 / 8 : ℝ) (1 / 2) = 1 from ?_]
          · rw [gwinOf]
            have hc2 : ⌈(1 / 8 : ℝ) / (1 / 2)⌉ = 1 := by
              rw [show ((1 / 8 : ℝ) / (1 / 2)) = 1 / 4 by norm_num, Int.ceil_eq_iff]
              norm_num
            simp only [hc2]
            norm_num)
      (by norm_num [cfgW8, cfgA])⟩

/-! ### C10: concrete mutation of K under projection -/

def cfgC10 : Config :=
  { cfgA with in_plane := true, Kij := fun a b => if a = 2 ∧ b = 0 then 1 else 0 }

/-- C10 counterexample: with in-plane projection active, a completed run has
zeroed the z-rows of the force-constant matrix in place: entry `K[2][0]`,
loaded as `1`, equals `0` after `postProcess` completes.  `K` is not immutable
under projection. -/
theorem C10_in_plane_projection_mutates_K :
    (postProcess cfgC10 (mkStream (List.replicate 24 0))).map (fun r => r.Kij 2 0)
      = .ok 0 ∧ cfgC10.Kij 2 0 = (1 : ℝ) := by
  constructor
  · rw [postProcess_mkStream cfgC10 _ rfl rfl rfl]
    have hgood := goodSt_init4 cfgC10 (mkStream (List.replicate 24 0)) rfl rfl rfl
    obtain ⟨g1, g2, g3, g4, g5, g6⟩ := hgood
    have htake : (((initSt cfgC10 (mkStream (List.replicate 24 0))).data.take
        ((initSt cfgC10 (mkStream (List.replicate 24 0))).chunkSize
          * (3 * (cfgC10.NL + cfgC10.NR)))).length)
        = (initSt cfgC10 (mkStream (List.replicate 24 0))).chunkSize
          * (3 * (cfgC10.NL + cfgC10.NR)) := by
      simp [initSt, mkStream, cfgC10, cfgA]
    have hraw : (chunkRawOf cfgC10 (initSt cfgC10 (mkStream (List.replicate 24 0))).chunkSize
        (zeroZrowsR (initSt cfgC10 (mkStream (List.replicate 24 0))).Kij)
        (zeroZrowsC (selRows cfgC10.ids_L (velFFTfun cfgC10.sampleTimestep
          ((initSt cfgC10 (mkStream (List.replicate 24 0))).data.take
            ((initSt cfgC10 (mkStream (List.replicate 24 0))).chunkSize
              * (3 * (cfgC10.NL + cfgC10.NR))))
          (3 * (cfgC10.NL + cfgC10.NR))
          (initSt cfgC10 (mkStream (List.replicate 24 0))).chunkSize)))
        (zeroZrowsC (selRows cfgC10.ids_R (velFFTfun cfgC10.sampleTimestep
          ((initSt cfgC10 (mkStream (List.replicate 24 0))).data.take
            ((initSt cfgC10 (mkStream (List.replicate 24 0))).chunkSize
              * (3 * (cfgC10.NL + cfgC10.NR))))
          (3 * (cfgC10.NL + cfgC10.NR))
          (initSt cfgC10 (mkStream (List.replicate 24 0))).chunkSize)))
        (initSt cfgC10 (mkStream (List.replicate 24 0))).oms).length
        = (initSt cfgC10 (mkStream (List.replicate 24 0))).oms.length :=
      length_chunkRawOf _ _ _ _ _ _
    have hQ : stepChunk cfgC10 (3 * (cfgC10.NL + cfgC10.NR)) 0
        (initSt cfgC10 (mkStream (List.replicate 24 0)))
        = processChunk cfgC10 (3 * (cfgC10.NL + cfgC10.NR)) 0 false
            (initSt cfgC10 (mkStream (List.replicate 24 0))).chunkSize
            (initSt cfgC10 (mkStream (List.replicate 24 0))).oms
            ((initSt cfgC10 (mkStream (List.replicate 24 0))).data.take
              ((initSt cfgC10 (mkStream (List.replicate 24 0))).chunkSize
                * (3 * (cfgC10.NL + cfgC10.NR))))
            ((initSt cfgC10 (mkStream (List.replicate 24 0))).data.drop
              ((initSt cfgC10 (mkStream (List.replicate 24 0))).chunkSize
                * (3 * (cfgC10.NL + cfgC10.NR))))
            (initSt cfgC10 (mkStream (List.replicate 24 0))) :=
      stepChunk_fullRead cfgC10 (3 * (cfgC10.NL + cfgC10.NR)) 0 _ htake
        (by norm_num [initSt, cfgC10, cfgA])
    have hP := processChunk_ok_cont cfgC10 (3 * (cfgC10.NL + cfgC10.NR)) 0
      (initSt cfgC10 (mkStream (List.replicate 24 0))).chunkSize
      (initSt cfgC10 (mkStream (List.replicate 24 0))).oms
      ((initSt cfgC10 (mkStream (List.replicate 24 0))).data.take
        ((initSt cfgC10 (mkStream (List.replicate 24 0))).chunkSize
          * (3 * (cfgC10.NL + cfgC10.NR))))
      ((initSt cfgC10 (mkStream (List.replicate 24 0))).data.drop
        ((initSt cfgC10 (mkStream (List.replicate 24 0))).chunkSize
          * (3 * (cfgC10.NL + cfgC10.NR))))
      (initSt cfgC10 (mkStream (List.replicate 24 0)))
      (zeroZrowsR (initSt cfgC10 (mkStream (List.replicate 24 0))).Kij) _ _
      (by rw [htake, Nat.mul_comm])
      (by rw [if_pos (by norm_num [cfgC10, cfgA]), differDirection,
            if_pos ⟨rfl, rfl⟩])
      g4 g5
      (by rw [length_smoothen, hraw, g1]; omega)
      (by rw [hraw, g3])
    rw [hP] at hQ
    rw [show cfgC10.NChunks = 0 + 1 by norm_num [cfgC10, cfgA]]
    rw [chunkLoop_cont cfgC10 (3 * (cfgC10.NL + cfgC10.NR)) 0 0 _ _ hQ,
      chunkLoop_zero]
    simp only [Except.map, finalizeRun, zeroZrowsR, initSt]
    norm_num
  · norm_num [cfgC10, cfgA]

def cfgW10 : Config := { cfgA with NChunks := 1 }

def resW10 : Result where
  NChunks := -1
  oms_fft := omsList cfgW10.chunkSize cfgW10.sampleTimestep
  SHC_smooth := List.replicate (omsList cfgW10.chunkSize cfgW10.sampleTimestep).length 0
  SHC_smooth2 := List.replicate (omsList cfgW10.chunkSize cfgW10.sampleTimestep).length 0
  SHC_average := List.replicate (omsList cfgW10.chunkSize cfgW10.sampleTimestep).length 0
  SHC_error := none
  Kij := cfgW10.Kij

/-- Witness for the amended C10 at a concrete completed run. -/
theorem C10_Kij_preserved_without_projection_witness :
    cfgW10.in_plane = false ∧ cfgW10.out_of_plane = false ∧
    postProcess cfgW10 (mkStream []) = .ok resW10 ∧ resW10.Kij = cfgW10.Kij := by
  have hres : postProcess cfgW10 (mkStream []) = .ok resW10 := by
    rw [postProcess_mkStream cfgW10 [] rfl rfl rfl]
    have htake : ((initSt cfgW10 (mkStream [])).data.take
        ((initSt cfgW10 (mkStream [])).chunkSize * (3 * (cfgW10.NL + cfgW10.NR)))).length
        = 0 := by
      simp [initSt, mkStream]
    rw [show cfgW10.NChunks = 0 + 1 by norm_num [cfgW10, cfgA]]
    rw [chunkLoop_stop cfgW10 (3 * (cfgW10.NL + cfgW10.NR)) 0 0 _ _
      (stepChunk_empty cfgW10 (3 * (cfgW10.NL + cfgW10.NR)) 0 _ htake)]
    simp only [Except.map, finalizeRun, resW10, initSt]
    norm_num
  exact ⟨rfl, rfl, hres,
    C10_Kij_preserved_without_projection cfgW10 (mkStream []) resW10 rfl rfl hres⟩

/-! ### C3: the zero-frequency bin -/

theorem getD_chunkRawOf_zero (cfg : Config) (cS : ℕ) (K : ℕ → ℕ → ℝ)
    (vL vR : ℕ → ℕ → ℂ) (oms : List ℝ) (h : 0 < oms.length) :
    (chunkRawOf cfg cS K vL vR oms).getD 0 0 = 0 := by
  rw [chunkRawOf, normalizeCurve]
  rw [getD_map_of_lt _ _ (by rw [List.length_map, length_chunkSHCList]; exact h)]
  rw [getD_map_of_lt _ _ (by rw [length_chunkSHCList]; exact h)]
  rw [getD_chunkSHCList _ _ _ _ _ _ _ _ h, if_pos rfl]
  rw [zero_div, zero_mul]

theorem getD_eq_default_of_le (l : List ℝ) (n : ℕ) (h : l.length ≤ n) :
    l.getD n 0 = 0 := by
  rw [List.getD_eq_getElem?_getD, List.getElem?_eq_none h]
  rfl

theorem fullConvAt_single (a : List ℝ) (i : ℕ) (hi : i < a.length) :
    fullConvAt a [1] i = a.getD i 0 := by
  rw [fullConvAt]
  rw [Finset.sum_eq_single i]
  · rw [if_pos (le_refl i), Nat.sub_self]
    norm_num
  · intro j hj hne
    by_cases hle : j ≤ i
    · rw [if_pos hle,
        getD_eq_default_of_le [1] (i - j) (by rw [List.length_singleton]; omega), mul_zero]
    · rw [if_neg hle, mul_zero]
  · intro hmem
    exact absurd (Finset.mem_range.mpr hi) hmem

theorem getD_convolveSame (a v : List ℝ) (i : ℕ) (hi : i < max a.length v.length) :
    (convolveSame a v).getD i 0
      = fullConvAt a v (i + (min a.length v.length - 1) / 2) := by
  rw [convolveSame, getD_map_range _ _ _ hi]

theorem convolveSame_single (a : List ℝ) (hne : a ≠ []) : convolveSame a [1] = a := by
  have hlen : 1 ≤ a.length := List.length_pos.mpr hne
  have hmax : max a.length ([1] : List ℝ).length = a.length := by
    rw [List.length_singleton]
    omega
  have hmin : min a.length ([1] : List ℝ).length = 1 := by
    rw [List.length_singleton]
    omega
  apply List.ext_getElem
  · rw [length_convolveSame, hmax]
  · intro i h1 h2
    rw [← List.getD_eq_getElem (convolveSame a [1]) 0 h1, ← List.getD_eq_getElem a 0 h2]
    rw [getD_convolveSame a [1] i (by rw [hmax]; exact h2)]
    rw [hmin, Nat.sub_self, Nat.zero_div, Nat.add_zero]
    exact fullConvAt_single a i h2

theorem smoothen_identity (func : List ℝ) (df widthWin : ℝ)
    (hg : gwinOf widthWin df = 1) (hne : func ≠ []) :
    smoothen func df widthWin = func := by
  rw [smoothen, hg, gaussKernel_one, convolveSame_single func hne]

/-- C3 amended: bin 0 of every chunk's raw (normalized, un-smoothed) curve is
exactly 0; the smoothed curve keeps bin 0 equal to 0 when the Gaussian window
resolves to the size-1 identity kernel.  (With a wider kernel the same-mode
convolution mixes neighboring bins into bin 0, which the counterexample
exhibits.) -/
theorem C3_zero_bin_raw_always_smoothed_identity (cfg : Config) (cS : ℕ)
    (K : ℕ → ℕ → ℝ) (vL vR : ℕ → ℕ → ℂ) (oms : List ℝ) (df : ℝ)
    (h : 0 < oms.length) :
    (chunkRawOf cfg cS K vL vR oms).getD 0 0 = 0 ∧
    (gwinOf cfg.widthWin df = 1 →
      (smoothen (chunkRawOf cfg cS K vL vR oms) df cfg.widthWin).getD 0 0 = 0) := by
  have hraw := getD_chunkRawOf_zero cfg cS K vL vR oms h
  refine ⟨hraw, fun hg => ?_⟩
  rw [smoothen_identity _ _ _ hg
    (List.length_pos.mp (by rw [length_chunkRawOf]; exact h))]
  exact hraw

/-- Witness for the amended C3 at a concrete input. -/
theorem C3_zero_bin_witness :
    0 < (omsList 4 (1 : ℝ)).length ∧
    ((chunkRawOf cfgA 4 cfgA.Kij (fun _ _ => 0) (fun _ _ => 0)
        (omsList 4 (1 : ℝ))).getD 0 0 = 0 ∧
      (gwinOf cfgA.widthWin (1 / 4 : ℝ) = 1 →
        (smoothen (chunkRawOf cfgA 4 cfgA.Kij (fun _ _ => 0) (fun _ _ => 0)
            (omsList 4 (1 : ℝ))) (1 / 4 : ℝ) cfgA.widthWin).getD 0 0 = 0)) :=
  ⟨by rw [length_omsList]; norm_num,
    C3_zero_bin_raw_always_smoothed_identity cfgA 4 cfgA.Kij (fun _ _ => 0)
      (fun _ _ => 0) (omsList 4 (1 : ℝ)) (1 / 4 : ℝ)
      (by rw [length_omsList]; norm_num)⟩

/-! ### C3 counterexample: numeric helper lemmas -/

def expNine : ℝ := Real.exp (-(9 : ℝ) / 2)

def c3val : ℝ := -(expNine / (Real.pi * (2 * expNine + 1)))

theorem expNine_pos : 0 < expNine := Real.exp_pos _

theorem c3val_ne_zero : c3val ≠ 0 := by
  have h1 : 0 < expNine := expNine_pos
  have h2 : 0 < Real.pi := Real.pi_pos
  have h3 : 0 < expNine / (Real.pi * (2 * expNine + 1)) := by positivity
  rw [c3val]
  exact neg_ne_zero.mpr h3.ne'

theorem gwinOf_three : gwinOf (1 / 2 : ℝ) (1 / 4) = 3 := by
  have hc2 : ⌈(1 / 2 : ℝ) / (1 / 4)⌉ = 2 := by
    rw [show ((1 / 2 : ℝ) / (1 / 4)) = 2 by norm_num]
    norm_num
  simp only [gwinOf, hc2]
  norm_num

theorem gaussKernel_three :
    gaussKernel 3 = [expNine / (2 * expNine + 1), 1 / (2 * expNine + 1),
      expNine / (2 * expNine + 1)] := by
  simp only [gaussKernel]
  rw [if_neg (by norm_num)]
  rw [show (3 : ℤ).toNat = 3 from rfl, show List.range 3 = [0, 1, 2] from rfl]
  simp only [List.map_cons, List.map_nil]
  have e0 : Real.exp (-(3 * (2 * ((0 : ℕ) : ℝ) / (((3 : ℤ) : ℝ) - 1) - 1)) ^ 2 / 2)
      = expNine := by
    rw [expNine]
    congr 1
    norm_num
  have e1 : Real.exp (-(3 * (2 * ((1 : ℕ) : ℝ) / (((3 : ℤ) : ℝ) - 1) - 1)) ^ 2 / 2)
      = 1 := by
    rw [show (-(3 * (2 * ((1 : ℕ) : ℝ) / (((3 : ℤ) : ℝ) - 1) - 1)) ^ 2 / 2) = 0 by norm_num]
    exact Real.exp_zero
  have e2 : Real.exp (-(3 * (2 * ((2 : ℕ) : ℝ) / (((3 : ℤ) : ℝ) - 1) - 1)) ^ 2 / 2)
      = expNine := by
    rw [expNine]
    congr 1
    norm_num
  rw [e0, e1, e2]
  rw [show [expNine, 1, expNine].sum = 2 * expNine + 1 by
    simp only [List.sum_cons, List.sum_nil]
    ring]

theorem getD_replicate_zero (n i : ℕ) : (List.replicate n (0 : ℝ)).getD i 0 = 0 := by
  rw [List.getD_eq_getElem?_getD, List.getElem?_replicate]
  split_ifs <;> rfl

theorem getD_zipWith_zero (f : ℝ → ℝ → ℝ) (l1 l2 : List ℝ)
    (h1 : l1 ≠ []) (h2 : l2 ≠ []) :
    (List.zipWith f l1 l2).getD 0 0 = f (l1.getD 0 0) (l2.getD 0 0) := by
  cases l1 with
  | nil => exact absurd rfl h1
  | cons x xs =>
    cases l2 with
    | nil => exact absurd rfl h2
    | cons y ys => rfl

def cfgC3 : Config := { cfgA with widthWin := 1 / 2 }

def dataC3 : List ℝ :=
  [1, 0, 0, 0, 0, 0,
   0, 0, 0, 1, 0, 0,
   0, 0, 0, 0, 0, 0,
   0, 0, 0, 0, 0, 0]

theorem rfft_row0_C3 : rfft (chunkRow dataC3 6 0) 4 1 = 1 := by
  rw [rfft, Finset.sum_range_succ, Finset.sum_range_succ, Finset.sum_range_succ,
    Finset.sum_range_one]
  rw [show chunkRow dataC3 6 0 0 = 1 from rfl, show chunkRow dataC3 6 0 1 = 0 from rfl,
    show chunkRow dataC3 6 0 2 = 0 from rfl, show chunkRow dataC3 6 0 3 = 0 from rfl]
  push_cast
  simp [Complex.exp_zero]

theorem exp_term_C3 :
    Complex.exp (-(2 * (Real.pi : ℂ) * Complex.I * ((1 : ℕ) : ℂ) * ((1 : ℕ) : ℂ))
        / ((4 : ℕ) : ℂ)) = -Complex.I := by
  have harg : -(2 * (Real.pi : ℂ) * Complex.I * ((1 : ℕ) : ℂ) * ((1 : ℕ) : ℂ))
      / ((4 : ℕ) : ℂ) = ((-(Real.pi / 2) : ℝ) : ℂ) * Complex.I := by
    push_cast
    ring
  rw [harg, Complex.exp_mul_I]
  rw [← Complex.ofReal_cos, ← Complex.ofReal_sin]
  rw [Real.cos_neg, Real.sin_neg, Real.cos_pi_div_two, Real.sin_pi_div_two]
  push_cast
  ring

theorem rfft_row3_C3 : rfft (chunkRow dataC3 6 3) 4 1 = -Complex.I := by
  rw [rfft, Finset.sum_range_succ, Finset.sum_range_succ, Finset.sum_range_succ,
    Finset.sum_range_one]
  rw [show chunkRow dataC3 6 3 0 = 0 from rfl, show chunkRow dataC3 6 3 1 = 1 from rfl,
    show chunkRow dataC3 6 3 2 = 0 from rfl, show chunkRow dataC3 6 3 3 = 0 from rfl]
  rw [exp_term_C3]
  push_cast
  ring

theorem oms1_C3 : (omsList 4 (1 : ℝ)).getD 1 0 = Real.pi / 2 := by
  rw [omsList, getD_map_range _ _ _ (by norm_num)]
  push_cast
  ring

theorem getD_convolveSame_three (a v : List ℝ) (ha : a.length = 3) (hv : v.length = 3) :
    (convolveSame a v).getD 0 0 = a.getD 0 0 * v.getD 1 0 + a.getD 1 0 * v.getD 0 0 := by
  rw [getD_convolveSame a v 0 (by rw [ha, hv]; norm_num)]
  rw [fullConvAt, ha, hv]
  rw [show (0 + (min 3 3 - 1) / 2 : ℕ) = 1 from rfl]
  rw [Finset.sum_range_succ, Finset.sum_range_succ, Finset.sum_range_one]
  norm_num

/-- C3 counterexample: a concrete run (one full chunk; a velocity impulse on
the left x row at timestep 0 and on the right x row at timestep 1; smoothing
window selecting a 3-point Gaussian kernel) produces a smoothed curve whose
zero-frequency bin is `-(exp(-9/2) / (pi * (1 + 2*exp(-9/2))))`, which is not
zero: the same-mode convolution folds bin 1 into bin 0. -/
theorem C3_smoothed_zero_bin_nonzero :
    (postProcess cfgC3 (mkStream dataC3)).map (fun r => r.SHC_smooth.getD 0 0)
      = .ok c3val ∧ c3val ≠ 0 := by
  refine ⟨?_, c3val_ne_zero⟩
  rw [postProcess_mkStream cfgC3 dataC3 rfl rfl rfl]
  have homs : (initSt cfgC3 (mkStream dataC3)).oms = omsList 4 1 := rfl
  have holen : (initSt cfgC3 (mkStream dataC3)).oms.length = 3 := by
    rw [homs, length_omsList]
  have hdf : dfOf (initSt cfgC3 (mkStream dataC3)).oms = 1 / 4 := by
    rw [homs, dfOf_omsList 4 1 (by norm_num)]
    norm_num
  have hgw : gwinOf cfgC3.widthWin (dfOf (initSt cfgC3 (mkStream dataC3)).oms) = 3 := by
    rw [hdf, show cfgC3.widthWin = (1 / 2 : ℝ) from rfl, gwinOf_three]
  have htake : ((initSt cfgC3 (mkStream dataC3)).data.take
      ((initSt cfgC3 (mkStream dataC3)).chunkSize * (3 * (cfgC3.NL + cfgC3.NR)))).length
      = (initSt cfgC3 (mkStream dataC3)).chunkSize * (3 * (cfgC3.NL + cfgC3.NR)) := by
    simp [initSt, mkStream, dataC3, cfgC3, cfgA]
  have htk : (initSt cfgC3 (mkStream dataC3)).data.take
      ((initSt cfgC3 (mkStream dataC3)).chunkSize * (3 * (cfgC3.NL + cfgC3.NR)))
      = dataC3 := by
    apply List.take_of_length_le
    simp [initSt, mkStream, dataC3, cfgC3, cfgA]
  have hrawlen : (chunkRawOf cfgC3 (initSt cfgC3 (mkStream dataC3)).chunkSize
      (initSt cfgC3 (mkStream dataC3)).Kij
      (selRows cfgC3.ids_L (velFFTfun cfgC3.sampleTimestep dataC3
        (3 * (cfgC3.NL + cfgC3.NR)) (initSt cfgC3 (mkStream dataC3)).chunkSize))
      (selRows cfgC3.ids_R (velFFTfun cfgC3.sampleTimestep dataC3
        (3 * (cfgC3.NL + cfgC3.NR)) (initSt cfgC3 (mkStream dataC3)).chunkSize))
      (initSt cfgC3 (mkStream dataC3)).oms).length = 3 := by
    rw [length_chunkRawOf, holen]
  have hQ : stepChunk cfgC3 (3 * (cfgC3.NL + cfgC3.NR)) 0 (initSt cfgC3 (mkStream dataC3))
      = processChunk cfgC3 (3 * (cfgC3.NL + cfgC3.NR)) 0 false
          (initSt cfgC3 (mkStream dataC3)).chunkSize
          (initSt cfgC3 (mkStream dataC3)).oms
          ((initSt cfgC3 (mkStream dataC3)).data.take
            ((initSt cfgC3 (mkStream dataC3)).chunkSize * (3 * (cfgC3.NL + cfgC3.NR))))
          ((initSt cfgC3 (mkStream dataC3)).data.drop
            ((initSt cfgC3 (mkStream dataC3)).chunkSize * (3 * (cfgC3.NL + cfgC3.NR))))
          (initSt cfgC3 (mkStream dataC3)) :=
    stepChunk_fullRead cfgC3 (3 * (cfgC3.NL + cfgC3.NR)) 0 _ htake
      (by norm_num [initSt, cfgC3, cfgA])
  rw [htk] at hQ
  have hP := processChunk_ok_cont cfgC3 (3 * (cfgC3.NL + cfgC3.NR)) 0
    (initSt cfgC3 (mkStream dataC3)).chunkSize
    (initSt cfgC3 (mkStream dataC3)).oms
    dataC3
    ((initSt cfgC3 (mkStream dataC3)).data.drop
      ((initSt cfgC3 (mkStream dataC3)).chunkSize * (3 * (cfgC3.NL + cfgC3.NR))))
    (initSt cfgC3 (mkStream dataC3))
    (initSt cfgC3 (mkStream dataC3)).Kij _ _
    (by simp [initSt, dataC3, cfgC3, cfgA])
    (by rw [if_neg (by norm_num [cfgC3, cfgA])])
    (by rw [holen]; norm_num)
    (by rw [hgw]; norm_num)
    (by rw [length_smoothen, hrawlen, hgw, gaussKernel_three]
        simp [initSt, length_omsList, cfgC3, cfgA])
    (by rw [hrawlen]
        simp [initSt, length_omsList, cfgC3, cfgA])
  rw [hP] at hQ
  rw [show cfgC3.NChunks = 0 + 1 by norm_num [cfgC3, cfgA]]
  rw [chunkLoop_cont cfgC3 (3 * (cfgC3.NL + cfgC3.NR)) 0 0 _ _ hQ, chunkLoop_zero]
  simp only [Except.map, finalizeRun]
  rw [getD_zipWith_zero (aggStep 0) _ _
    (by rw [show (initSt cfgC3 (mkStream dataC3)).SHC_smooth = List.replicate 3 0 from rfl]
        simp)
    (by apply List.length_pos.mp
        rw [length_smoothen, hrawlen, hgw, gaussKernel_three]
        norm_num)]
  rw [show (initSt cfgC3 (mkStream dataC3)).SHC_smooth = List.replicate 3 0 from rfl,
    getD_replicate_zero]
  rw [smoothen, hgw, gaussKernel_three]
  rw [getD_convolveSame_three _ _ hrawlen (by norm_num)]
  rw [getD_chunkRawOf_zero cfgC3 _ _ _ _ _ (by rw [holen]; norm_num)]
  rw [zero_mul, zero_add]
  have hK : (initSt cfgC3 (mkStream dataC3)).Kij
      = fun a b => if a = 0 ∧ b = 0 then (1 : ℝ) else 0 := rfl
  have hL0 : selRows cfgC3.ids_L (velFFTfun cfgC3.sampleTimestep dataC3
      (3 * (cfgC3.NL + cfgC3.NR)) (initSt cfgC3 (mkStream dataC3)).chunkSize) 0 1 = 1 := by
    simp only [selRows, velFFTfun]
    rw [show 3 * cfgC3.ids_L.getD (0 / 3) 0 + 0 % 3 = 0 from rfl]
    rw [show (3 * (cfgC3.NL + cfgC3.NR)) = 6 from rfl,
      show (initSt cfgC3 (mkStream dataC3)).chunkSize = 4 from rfl,
      show cfgC3.sampleTimestep = (1 : ℝ) from rfl]
    rw [rfft_row0_C3]
    simp
  have hR0 : selRows cfgC3.ids_R (velFFTfun cfgC3.sampleTimestep dataC3
      (3 * (cfgC3.NL + cfgC3.NR)) (initSt cfgC3 (mkStream dataC3)).chunkSize) 0 1
      = -Complex.I := by
    simp only [selRows, velFFTfun]
    rw [show 3 * cfgC3.ids_R.getD (0 / 3) 0 + 0 % 3 = 3 from rfl]
    rw [show (3 * (cfgC3.NL + cfgC3.NR)) = 6 from rfl,
      show (initSt cfgC3 (mkStream dataC3)).chunkSize = 4 from rfl,
      show cfgC3.sampleTimestep = (1 : ℝ) from rfl]
    rw [rfft_row3_C3]
    simp
  have hm0 : matVecC (3 * cfgC3.NR) (initSt cfgC3 (mkStream dataC3)).Kij
      (fun b => (starRingEnd ℂ) (selRows cfgC3.ids_R (velFFTfun cfgC3.sampleTimestep dataC3
        (3 * (cfgC3.NL + cfgC3.NR)) (initSt cfgC3 (mkStream dataC3)).chunkSize) b 1)) 0
      = Complex.I := by
    rw [matVecC, show (3 * cfgC3.NR) = 3 from rfl]
    rw [Finset.sum_range_succ, Finset.sum_range_succ, Finset.sum_range_one]
    rw [hK]
    norm_num
    rw [hR0]
    simp
  have hm1 : matVecC (3 * cfgC3.NR) (initSt cfgC3 (mkStream dataC3)).Kij
      (fun b => (starRingEnd ℂ) (selRows cfgC3.ids_R (velFFTfun cfgC3.sampleTimestep dataC3
        (3 * (cfgC3.NL + cfgC3.NR)) (initSt cfgC3 (mkStream dataC3)).chunkSize) b 1)) 1
      = 0 := by
    rw [matVecC, show (3 * cfgC3.NR) = 3 from rfl]
    rw [Finset.sum_range_succ, Finset.sum_range_succ, Finset.sum_range_one]
    rw [hK]
    norm_num
  have hm2 : matVecC (3 * cfgC3.NR) (initSt cfgC3 (mkStream dataC3)).Kij
      (fun b => (starRingEnd ℂ) (selRows cfgC3.ids_R (velFFTfun cfgC3.sampleTimestep dataC3
        (3 * (cfgC3.NL + cfgC3.NR)) (initSt cfgC3 (mkStream dataC3)).chunkSize) b 1)) 2
      = 0 := by
    rw [matVecC, show (3 * cfgC3.NR) = 3 from rfl]
    rw [Finset.sum_range_succ, Finset.sum_range_succ, Finset.sum_range_one]
    rw [hK]
    norm_num
  have hdot : dotC (3 * cfgC3.NL)
      (fun a => selRows cfgC3.ids_L (velFFTfun cfgC3.sampleTimestep dataC3
        (3 * (cfgC3.NL + cfgC3.NR)) (initSt cfgC3 (mkStream dataC3)).chunkSize) a 1)
      (matVecC (3 * cfgC3.NR) (initSt cfgC3 (mkStream dataC3)).Kij
        (fun b => (starRingEnd ℂ) (selRows cfgC3.ids_R (velFFTfun cfgC3.sampleTimestep dataC3
          (3 * (cfgC3.NL + cfgC3.NR)) (initSt cfgC3 (mkStream dataC3)).chunkSize) b 1)))
      = Complex.I := by
    rw [dotC, show (3 * cfgC3.NL) = 3 from rfl]
    rw [Finset.sum_range_succ, Finset.sum_range_succ, Finset.sum_range_one]
    rw [hm0, hm1, hm2, hL0, mul_zero, mul_zero, add_zero, add_zero, one_mul]
  have hval : (chunkRawOf cfgC3 (initSt cfgC3 (mkStream dataC3)).chunkSize
      (initSt cfgC3 (mkStream dataC3)).Kij
      (selRows cfgC3.ids_L (velFFTfun cfgC3.sampleTimestep dataC3
        (3 * (cfgC3.NL + cfgC3.NR)) (initSt cfgC3 (mkStream dataC3)).chunkSize))
      (selRows cfgC3.ids_R (velFFTfun cfgC3.sampleTimestep dataC3
        (3 * (cfgC3.NL + cfgC3.NR)) (initSt cfgC3 (mkStream dataC3)).chunkSize))
      (initSt cfgC3 (mkStream dataC3)).oms).getD 1 0 = -(1 / Real.pi) := by
    rw [chunkRawOf, normalizeCurve]
    rw [getD_map_of_lt _ _ (by rw [List.length_map, length_chunkSHCList, holen]; norm_num)]
    rw [getD_map_of_lt _ _ (by rw [length_chunkSHCList, holen]; norm_num)]
    rw [getD_chunkSHCList _ _ _ _ _ _ _ _ (by rw [holen]; norm_num), if_neg one_ne_zero]
    rw [hdot, Complex.I_im, homs, oms1_C3]
    rw [show (initSt cfgC3 (mkStream dataC3)).chunkSize = 4 from rfl,
      show cfgC3.sampleTimestep = (1 : ℝ) from rfl,
      show cfgC3.scaleFactor = (1 : ℝ) from rfl]
    have hpi := Real.pi_ne_zero
    push_cast
    field_simp
    ring
  rw [hval]
  rw [show ([expNine / (2 * expNine + 1), 1 / (2 * expNine + 1),
      expNine / (2 * expNine + 1)].getD 0 0) = expNine / (2 * expNine + 1) from rfl]
  rw [show aggStep 0 0 (-(1 / Real.pi) * (expNine / (2 * expNine + 1)))
      = -(1 / Real.pi) * (expNine / (2 * expNine + 1)) from by
    rw [aggStep]
    norm_num]
  rw [c3val]
  have hpi := Real.pi_ne_zero
  have hSpos : (0 : ℝ) < 2 * expNine + 1 := by
    have := expNine_pos
    linarith
  have hS : (2 * expNine + 1) ≠ 0 := hSpos.ne'
  field_simp

end SHC

end
